import Mathlib

/-!
Verification of the AI-tool-finder discovery pipeline.

This file gives a shallow embedding, in Lean 4, of the pure logic of the
discovery pipeline of the repository and its two service adapters:

* `src/src/services/tool-finder.ts`   (namespace `SrcFinder` below),
* `src/unnamed/part_003` — the second `findTools` implementation working on
  `AppTool` records (namespace `P3Finder` below),
* `src/src/services/firecrawl.ts` and the retrying variant in
  `src/unnamed/part_002` (namespace `Fc` below),
* `src/src/services/azure-openai.ts` (namespace `Azure` below).

External network calls (Firecrawl scrape/search/crawl, Azure OpenAI chat
completion) are modelled by explicit environment records carrying the outcome of each
call; the TypeScript control flow around those outcomes is translated
verbatim.  JavaScript strings are `String`, absent/undefined string fields are
encoded as `""` exactly where the source only ever tests them for truthiness,
and `Option` is used where the source distinguishes an absent array from a
present (possibly empty) one (JS `[]` is truthy).  Numeric fields that never
influence control flow are modelled as `Option Nat`.
-/

/-! ## JavaScript string primitives -/

/-- JS whitespace (`\s`) restricted to its ASCII part: space, tab, newline,
vertical tab, form feed, carriage return. -/
def isWsChar (c : Char) : Bool :=
  c == ' ' || c == '\t' || c == '\n' || c == '\r' ||
  c == Char.ofNat 11 || c == Char.ofNat 12

/-- JS word character (`\w`): ASCII letters, digits and underscore. -/
def isWordChar (c : Char) : Bool :=
  c.isAlphanum || c == '_'

/-- Case-insensitive prefix test on character lists (ASCII lowering), used for
the `i`-flagged regex literals. -/
def ciPrefixOf : List Char → List Char → Bool
  | [], _ => true
  | _ :: _, [] => false
  | p :: ps, c :: cs => (p.toLower == c.toLower) && ciPrefixOf ps cs

/-- Exact prefix test on character lists. -/
def listPrefixOf : List Char → List Char → Bool
  | [], _ => true
  | _ :: _, [] => false
  | p :: ps, c :: cs => (p == c) && listPrefixOf ps cs

/-- JS `String.prototype.includes` on character lists (case sensitive). -/
def containsSub : List Char → List Char → Bool
  | [], pat => pat.isEmpty
  | l@(_ :: rest), pat => listPrefixOf pat l || containsSub rest pat

/-- JS `s.includes(sub)` on strings. -/
def strContains (s sub : String) : Bool :=
  containsSub s.toList sub.toList

/-- JS `s.toLowerCase()` (ASCII). -/
def lowerStr (s : String) : String :=
  String.mk (s.toList.map Char.toLower)

/-- JS `q.charAt(0).toUpperCase() + q.slice(1)`. -/
def capitalizeFirst (s : String) : String :=
  match s.toList with
  | [] => ""
  | c :: rest => String.mk (c.toUpper :: rest)

/-- Drop a maximal run of trailing whitespace (the right half of JS
`String.prototype.trim`), by structural recursion. -/
def dropTrailWs : List Char → List Char
  | [] => []
  | c :: rest =>
    match dropTrailWs rest with
    | [] => if isWsChar c then [] else [c]
    | r => c :: r

/-- JS `String.prototype.trim` on character lists (ASCII whitespace). -/
def jsTrimL (l : List Char) : List Char :=
  dropTrailWs (l.dropWhile isWsChar)

/-- JS `s.trim()` on strings. -/
def jsTrimStr (s : String) : String :=
  String.mk (jsTrimL s.toList)

/-! ## `encodeURIComponent` -/

/-- Upper-case hexadecimal digit. -/
def hexDigit (n : Nat) : Char :=
  if n < 10 then Char.ofNat (48 + n) else Char.ofNat (55 + n)

/-- Percent-encode one byte. -/
def pctByte (b : Nat) : List Char :=
  ['%', hexDigit (b / 16), hexDigit (b % 16)]

/-- UTF-8 byte sequence of a code point. -/
def utf8Bytes (n : Nat) : List Nat :=
  if n < 0x80 then [n]
  else if n < 0x800 then [0xC0 + n / 0x40, 0x80 + n % 0x40]
  else if n < 0x10000 then
    [0xE0 + n / 0x1000, 0x80 + (n / 0x40) % 0x40, 0x80 + n % 0x40]
  else
    [0xF0 + n / 0x40000, 0x80 + (n / 0x1000) % 0x40,
     0x80 + (n / 0x40) % 0x40, 0x80 + n % 0x40]

/-- Characters `encodeURIComponent` leaves unescaped:
letters, digits, and the characters hyphen, underscore, dot, bang, tilde,
star, apostrophe and parentheses. -/
def isUnreservedChar (c : Char) : Bool :=
  c.isAlphanum || ("-_.!~*()".toList.contains c) || c == Char.ofNat 39

/-- JS `encodeURIComponent` (UTF-8 percent encoding). -/
def encodeURIComponent (s : String) : String :=
  String.mk ((s.toList.map (fun c =>
    if isUnreservedChar c then [c]
    else ((utf8Bytes c.toNat).map pctByte).flatten)).flatten)

/-! ## Query normalization (`cleanQuery`)

Both `findTools` implementations normalize the raw query with

`query.replace(/what is|the best|tool for|tools for|ai|^\?|\?$|[?.!]/gi, '')
      .replace(/\s+/g, ' ').trim()`

(the `part_003` variant spells the punctuation alternatives
`\?|\.$|[?.!]`, which removes exactly the same characters, since the
character class `[?.!]` already deletes every `?`, `.` and `!`).
We implement the global, leftmost, first-alternative-wins replacement
directly on character lists. -/

/-- Length of the regex alternative matching at the head of `s`
(first alternative wins, as in JS alternation), or `none`. -/
def fillerAltLen (s : List Char) : Option Nat :=
  if ciPrefixOf ("what is".toList) s then some 7
  else if ciPrefixOf ("the best".toList) s then some 8
  else if ciPrefixOf ("tool for".toList) s then some 8
  else if ciPrefixOf ("tools for".toList) s then some 9
  else if ciPrefixOf ("ai".toList) s then some 2
  else
    match s with
    | c :: _ => if c == '?' || c == '.' || c == '!' then some 1 else none
    | [] => none

/-- Scanner for the global replace: at each position try the alternation; on a
match delete it and continue after it, otherwise keep the character and move
on.  Fuel is the remaining length (each step consumes at least one char). -/
def stripScanF : Nat → List Char → List Char
  | 0, s => s
  | _ + 1, [] => []
  | fuel + 1, c :: cs =>
    match fillerAltLen (c :: cs) with
    | some k => stripScanF fuel (List.drop (k - 1) cs)
    | none => c :: stripScanF fuel cs

/-- The filler-stripping pass of `cleanQuery`. -/
def stripFillers (l : List Char) : List Char :=
  stripScanF l.length l

/-- State-machine form of `replace(/\s+/g, ' ')`: `prevWs` records whether the
previous character belonged to a whitespace run already emitted as `' '`. -/
def collapseAux : Bool → List Char → List Char
  | _, [] => []
  | prevWs, c :: rest =>
    if isWsChar c then
      if prevWs then collapseAux true rest
      else ' ' :: collapseAux true rest
    else c :: collapseAux false rest

/-- JS `replace(/\s+/g, ' ')`. -/
def collapseWs (l : List Char) : List Char :=
  collapseAux false l

/-- Query normalization of the pipeline: strip filler words/punctuation,
collapse whitespace, trim.  There is no fallback of any kind when the result
is empty. -/
def cleanQuery (q : String) : String :=
  String.mk (jsTrimL (collapseWs (stripFillers q.toList)))


/-! ## Firecrawl adapter retry loops (`firecrawl.ts`, `part_002`)

The transport (the remote Firecrawl API) is modelled as a function from the
attempt index and the current (mutated) request-option state to an outcome:
the call can return a success object, return a failure object carrying an
error message, or throw.  The adapter loops below are translated from

* `scrapeSingleUrl`   (3 attempts, proxy toggle on failure, simplified
  options before the last attempt) — identical loop in
  `src/src/services/firecrawl.ts` lines 91-141 and `part_002` lines 113-165;
* `searchWithFirecrawl` (3 attempts, simplified options before the last);
* `crawlWebsite` in `part_002` lines 230-273 (2 attempts, options simplified
  and limit reduced on every retry);
* `crawlWebsite` in `src/src/services/firecrawl.ts` lines 165-238, which
  performs a single call with NO retry loop. -/

namespace Fc

/-- Outcome of one transport call. -/
inductive TOutcome where
  | ok : TOutcome
  | fail : String → TOutcome
  | thrown : TOutcome
deriving DecidableEq

/-- The shared `while (attempts < maxAttempts)` retry loop.
`n` is the number of attempts still allowed, `i` the attempt index, `st` the
mutable request-option state, `last` the last assigned `result` variable
(calls that throw leave `result` untouched).  Returns the number of transport
calls made and the final value of `result`.  On a failed attempt the state is
updated by `onFail` (given the remaining attempt budget) before retrying; a
thrown attempt retries with the state unchanged, exactly as in the source
(the `catch` branches skip the proxy/option mutation). -/
def retryLoop {S : Type} (transport : Nat → S → TOutcome) (onFail : Nat → S → S) :
    Nat → Nat → S → Option TOutcome → Nat × Option TOutcome
  | 0, _, _, last => (0, last)
  | n + 1, i, st, last =>
    match transport i st with
    | .ok => (1, some .ok)
    | .fail e =>
      if n = 0 then (1, some (.fail e))
      else
        let r := retryLoop transport onFail n (i + 1) (onFail n st) (some (.fail e))
        (r.1 + 1, r.2)
    | .thrown =>
      if n = 0 then (1, last)
      else
        let r := retryLoop transport onFail n (i + 1) st last
        (r.1 + 1, r.2)

/-- Mutated request options of `scrapeSingleUrl`: the anti-bot proxy header
(`true` = stealth, `false` = basic) and whether the request was degraded to
the minimal configuration. -/
structure ScrapeState where
  stealth : Bool
  simplified : Bool
deriving DecidableEq

/-- Failed-attempt mutation of `scrapeSingleUrl`: toggle the proxy mode, and
simplify the request when the upcoming attempt is the last one
(`attempts === maxAttempts - 1`, i.e. one attempt remains). -/
def scrapeOnFail (n : Nat) (st : ScrapeState) : ScrapeState :=
  { stealth := !st.stealth, simplified := st.simplified || (n = 1) }

/-- The `scrapeSingleUrl` retry loop: `maxAttempts = 3`. -/
def scrapeSingleUrlLoop (transport : Nat → ScrapeState → TOutcome)
    (initStealth : Bool) : Nat × Option TOutcome :=
  retryLoop transport scrapeOnFail 3 0 { stealth := initStealth, simplified := false } none

/-- The `searchWithFirecrawl` retry loop: `maxAttempts = 3`; the state is
whether the options were reduced to the minimal set before the last attempt. -/
def searchLoop (transport : Nat → Bool → TOutcome) : Nat × Option TOutcome :=
  retryLoop transport (fun n st => st || (n = 1)) 3 0 false none

/-- Mutated request options of the `part_002` `crawlWebsite`: whether the
scrape options were simplified, and the page limit. -/
structure CrawlState where
  simplified : Bool
  limit : Nat
deriving DecidableEq

/-- Failed-attempt mutation of `crawlWebsite` (`part_002`): simplify the scrape
options and reduce the limit to 5, on every retry. -/
def crawlOnFail (_ : Nat) (st : CrawlState) : CrawlState :=
  { simplified := true, limit := if st.limit > 5 then 5 else st.limit }

/-- The `crawlWebsite` retry loop of `part_002`: `maxAttempts = 2`. -/
def crawlLoopP2 (transport : Nat → CrawlState → TOutcome) (limit0 : Nat) :
    Nat × Option TOutcome :=
  retryLoop transport crawlOnFail 2 0 { simplified := false, limit := limit0 } none

/-- The `crawlWebsite` of `src/src/services/firecrawl.ts`: a single
`firecrawlClient.crawlUrl` call with no retry loop at all. -/
def crawlWebsiteSrc (transport : Nat → TOutcome) : Nat × Option TOutcome :=
  (1, some (transport 0))

/-- Mapping the final `result` variable of the loop to the returned value
of the adapter: a success object, or a typed failure carrying the last observed error
message (or the generic message when no result object was ever assigned). -/
def finishScrape : Option TOutcome → Except String Unit
  | some .ok => .ok ()
  | some (.fail e) => .error e
  | _ => .error "Unknown error occurred after multiple attempts"

end Fc

/-! ## Azure OpenAI analysis adapter (`azure-openai.ts`) -/

namespace Azure

/-- The extraction-family test used by every fallback site in `analyzeTool`:
`data.task && data.task.includes("extract")`. -/
def taskIncludesExtract : Option String → Bool
  | none => false
  | some t => strContains t "extract"

/-- The synthesized fallback tool of `createFallbackToolResponse`
(`azure-openai.ts` lines 213-239); the adapter returns its
`JSON.stringify`, modelled here as the structured payload itself. -/
structure FallbackTool where
  name : String
  description : String
  url : String
  pricing : String
  categories : List String
  useCases : List String
  pros : List String
  cons : List String
deriving DecidableEq

/-- Function `createFallbackToolResponse(query)`. -/
def createFallbackToolResponse (query : String) : FallbackTool :=
  let queryClean :=
    String.mk (jsTrimL (query.toList.filter (fun c => isWordChar c || isWsChar c)))
  let toolName := "AI " ++ capitalizeFirst queryClean ++ " Assistant"
  { name := toolName
    description := "An advanced AI tool designed to help with " ++ query ++
      " tasks through intelligent automation and data processing."
    url := "https://theresanaiforthat.com/search?q=" ++ encodeURIComponent query
    pricing := "Freemium (Free tier available with paid upgrades)"
    categories := [query, "AI", "Automation"]
    useCases :=
      ["Streamlining " ++ query ++ " workflows",
       "Automating repetitive " ++ query ++ " tasks",
       "Generating insights from " ++ query ++ " data"]
    pros :=
      ["Easy to use interface", "No coding required",
       "Regular updates and improvements", "Integrates with popular tools"]
    cons :=
      ["Advanced features require paid subscription",
       "May require initial setup time"] }

/-- Outcome of the chat-completion HTTP call. -/
inductive CallOutcome where
  | ok : String → CallOutcome
  | httpError : String → String → CallOutcome
  | netError : String → CallOutcome
deriving DecidableEq

/-- What `analyzeTool` resolves to: the model reply content, or the
`JSON.stringify` of the synthesized fallback tool. -/
inductive Reply where
  | content : String → Reply
  | fallbackJson : FallbackTool → Reply
deriving DecidableEq

/-- The failure semantics of `analyzeTool` (`azure-openai.ts` lines 158-205):
a non-2xx response or a thrown fetch resolves to the synthesized fallback
response when the task tag contains `extract` (with `data.query || "AI tool"`
as the fallback query), and re-raises the error otherwise. -/
def analyzeTool (task : Option String) (query : String) (o : CallOutcome) :
    Except String Reply :=
  match o with
  | .ok c => .ok (.content c)
  | .httpError statusText body =>
    if taskIncludesExtract task then
      .ok (.fallbackJson (createFallbackToolResponse (if query = "" then "AI tool" else query)))
    else
      .error ("Azure OpenAI API error: " ++ statusText ++ ". Details: " ++ body)
  | .netError msg =>
    if taskIncludesExtract task then
      .ok (.fallbackJson (createFallbackToolResponse (if query = "" then "AI tool" else query)))
    else
      .error msg

end Azure


/-! ## The discovery pipeline of `src/src/services/tool-finder.ts`

`findTools` tries, in order: (1) an LLM extraction of product candidates from
the ProductHunt products-search page, enriched by scraping the best
own website of the best candidate; (2) the specialized
`scrapeProductHuntSearch` helper, with a regex hunt for the `Visit Website`
link of the product; (3) a plain
Firecrawl web search; and finally a synthesized fallback record.  The outcome
of every external call is a field of `SrcFinder.Env`.  The two `catch`
branches of the source can never fire in this model because every modelled
adapter call returns a result object instead of throwing (the adapters catch
internally), so they are not represented. -/

namespace SrcFinder

/-- The `Tool` record of `tool-finder.ts` (note: it has no `features` field).
Optional string fields are `""` when absent; `pros`/`cons`/`useCases`/
`screenshots`/`categories` are `Option` because some pushes omit them
entirely while others set them to a possibly empty list. -/
structure Tool where
  name : String
  description : String
  url : String
  source : String
  badges : List String
  videoEmbed : String
  pricing : String
  tagline : String
  imageUrl : String
  lastUpdated : String
  rating : Option Nat
  upvotes : Option Nat
  categories : Option (List String)
  pros : Option (List String)
  cons : Option (List String)
  useCases : Option (List String)
  screenshots : Option (List String)
deriving DecidableEq

/-- A product candidate from the step-1 LLM extraction
(`extractionResult.data.json`). -/
structure Candidate where
  name : String
  description : String
  websiteUrl : String
  url : String
  tagline : String
  imageUrl : String
  upvotes : Option Nat
deriving DecidableEq

/-- A product from the `data.json.products` of `scrapeProductHuntSearch`. -/
structure PhProduct where
  name : String
  description : String
  url : String
  imageUrl : String
  upvotes : Option Nat
  categories : Option (List String)
deriving DecidableEq

/-- The JSON object returned by a website structured-data extraction
(`websiteExtraction.data.json`). -/
structure ProductDetails where
  name : String
  description : String
  imageUrl : String
  pricing : String
  videoEmbed : String
  lastUpdated : String
  pros : Option (List String)
  cons : Option (List String)
  useCases : Option (List String)
  screenshots : Option (List String)
  rating : Option Nat
deriving DecidableEq

/-- The `{}` that `productDetails` is initialized to when extraction fails. -/
def emptyDetails : ProductDetails :=
  { name := "", description := "", imageUrl := "", pricing := "",
    videoEmbed := "", lastUpdated := "", pros := none, cons := none,
    useCases := none, screenshots := none, rating := none }

/-- One document of a `searchWithFirecrawl` result. -/
structure SearchDoc where
  url : String
  title : String
  description : String
deriving DecidableEq

/-- Outcomes of the external calls made by `findTools`, in program order.
`none`/`false` stands for a failed call (or one with no usable payload). -/
structure Env where
  productScrape : Bool
  extraction : Option (List Candidate)
  websiteScrape : Bool
  websiteExtraction : Option ProductDetails
  phSearch : Option (List PhProduct)
  productPage : Option String
  websiteScrape2 : Bool
  websiteExtraction2 : Option ProductDetails
  fcSearch : Option (List SearchDoc)
  websiteScrape3 : Bool
  websiteExtraction3 : Option ProductDetails
  today : String

/-- Function `generateDefaultPros` (`tool-finder.ts` lines 888-898). -/
def generateDefaultPros (toolName query : String) : List String :=
  let safeName := if toolName = "" then "This tool" else toolName
  let safeQuery := if query = "" then "various tasks" else query
  [safeName ++ " offers an intuitive interface for " ++ safeQuery ++ " tasks",
   "Advanced AI algorithms for accurate " ++ safeQuery ++ " results",
   "Time-saving automation of complex " ++ safeQuery ++ " workflows",
   "Seamless integration with popular tools and platforms"]

/-- Function `generateDefaultCons`. -/
def generateDefaultCons : List String :=
  ["Advanced features may require a paid subscription",
   "Learning curve for complex use cases"]

/-- Function `generateDefaultUseCases`. -/
def generateDefaultUseCases (query : String) : List String :=
  let safeQuery := if query = "" then "various tasks" else query
  ["Automated " ++ safeQuery ++ " for business intelligence",
   "Generating insights from " ++ safeQuery ++ " datasets",
   "Building interactive " ++ safeQuery ++ " dashboards",
   "Streamlining " ++ safeQuery ++ " workflows with AI assistance",
   "Real-time " ++ safeQuery ++ " for decision making"]

/-- The listicle-marker filter applied to candidate names/titles. -/
def isListicle (name : String) : Bool :=
  strContains (lowerStr name) "best" || strContains (lowerStr name) "top" ||
  strContains (lowerStr name) "tools to use"

/-- The URL `https://www.producthunt.com/search?q=${encodeURIComponent(q + " AI")}`. -/
def phSearchUrlAI (q : String) : String :=
  "https://www.producthunt.com/search?q=" ++ encodeURIComponent (q ++ " AI")

/-- The URL `https://www.producthunt.com/search?q=${encodeURIComponent(q)}`. -/
def phSearchUrlPlain (q : String) : String :=
  "https://www.producthunt.com/search?q=" ++ encodeURIComponent q

/-- Split `l` at the first occurrence of `stop`, returning the (possibly
empty) segment before it and the remainder after it. -/
def takeUntilChar (stop : Char) : List Char → Option (List Char × List Char)
  | [] => none
  | c :: rest =>
    if c == stop then some ([], rest)
    else
      match takeUntilChar stop rest with
      | some (a, b) => some (c :: a, b)
      | none => none

/-- Try the regex `href="([^"]+)"[^>]*>` followed by `anchor` (everything
case-insensitive, `/i`) at the head of `s`; returns the captured group. -/
def matchHrefAt (anchor : List Char) (s : List Char) : Option (List Char) :=
  if ciPrefixOf ("href=".toList ++ ['"']) s then
    match takeUntilChar '"' (s.drop 6) with
    | some (cap, s2) =>
      if cap.isEmpty then none
      else
        match takeUntilChar '>' s2 with
        | some (_, s3) => if ciPrefixOf anchor s3 then some cap else none
        | none => none
    | none => none
  else none

/-- Leftmost match of the `href` pattern (fuel = remaining length). -/
def findHrefLink (anchor : List Char) : Nat → List Char → Option (List Char)
  | 0, _ => none
  | _ + 1, [] => none
  | fuel + 1, s@(_ :: rest) =>
    match matchHrefAt anchor s with
    | some cap => some cap
    | none => findHrefLink anchor fuel rest

/-- The `Visit Website` link hunt of lines 243-244:
`html.match(/href="([^"]+)"[^>]*>Visit Website/i) ||
 html.match(/href="([^"]+)"[^>]*>Website/i)`. -/
def findVisitWebsiteLink (html : String) : Option String :=
  match findHrefLink ("Visit Website".toList) html.toList.length html.toList with
  | some cap => some (String.mk cap)
  | none =>
    (findHrefLink ("Website".toList) html.toList.length html.toList).map String.mk

/-- The fully-enriched tool of lines 157-176 (branch 1, website scraped). -/
def completeTool1 (cq today : String) (best : Candidate) (pd : ProductDetails) : Tool :=
  { name := best.name
    description := best.description
    url := best.websiteUrl
    source := "ProductHunt"
    upvotes := best.upvotes
    imageUrl := best.imageUrl
    tagline := best.tagline
    pros := some (pd.pros.getD (generateDefaultPros best.name cq))
    cons := some (pd.cons.getD generateDefaultCons)
    useCases := some (pd.useCases.getD (generateDefaultUseCases cq))
    pricing := pd.pricing
    videoEmbed := pd.videoEmbed
    screenshots :=
      match pd.screenshots with
      | some s => some s
      | none => if best.imageUrl != "" then some [best.imageUrl] else none
    badges := ["AI", cq]
    rating := pd.rating
    lastUpdated := if pd.lastUpdated != "" then pd.lastUpdated else today
    categories := some [cq, "AI"] }

/-- The ProductHunt-information-only tool of lines 184-197 (branch 1,
website scrape failed). -/
def phOnlyTool1 (cq today : String) (best : Candidate) : Tool :=
  { name := best.name
    description := best.description
    url := if best.websiteUrl != "" then best.websiteUrl else best.url
    source := "ProductHunt"
    upvotes := best.upvotes
    imageUrl := best.imageUrl
    tagline := best.tagline
    pros := some (generateDefaultPros best.name cq)
    cons := some generateDefaultCons
    useCases := some (generateDefaultUseCases cq)
    lastUpdated := today
    badges := []
    videoEmbed := ""
    pricing := ""
    rating := none
    categories := none
    screenshots := none }

/-- The candidate filter of lines 98-105: a name, a description, a website
URL, and no listicle marker. -/
def actualProducts1 (cands : List Candidate) : List Candidate :=
  cands.filter (fun p =>
    p.name != "" && p.description != "" && p.websiteUrl != "" && !isListicle p.name)

/-- Branch 1 (lines 46-201): scrape the ProductHunt products-search page,
LLM-extract candidates, filter listicles, enrich the best candidate from its
own website. -/
def branch1 (cq : String) (env : Env) : List Tool :=
  if env.productScrape then
    if (env.extraction.getD []).length > 0 then
      match actualProducts1 (env.extraction.getD []) with
      | [] => []
      | best :: _ =>
        if env.websiteScrape then
          [completeTool1 cq env.today best (env.websiteExtraction.getD emptyDetails)]
        else
          [phOnlyTool1 cq env.today best]
    else []
  else []

/-- The enriched tool of lines 283-301 (branch 2, website scraped). -/
def completeTool2 (cq today wurl : String) (best : PhProduct) (pd : ProductDetails) : Tool :=
  { name := best.name
    description := best.description
    url := wurl
    source := "ProductHunt"
    upvotes := best.upvotes
    imageUrl := best.imageUrl
    pros := some (pd.pros.getD (generateDefaultPros best.name cq))
    cons := some (pd.cons.getD generateDefaultCons)
    useCases := some (pd.useCases.getD (generateDefaultUseCases cq))
    pricing := pd.pricing
    videoEmbed := pd.videoEmbed
    screenshots :=
      match pd.screenshots with
      | some s => some s
      | none => if best.imageUrl != "" then some [best.imageUrl] else none
    badges := ["AI", cq]
    lastUpdated := today
    categories := some [cq, "AI"]
    tagline := ""
    rating := none }

/-- The tool of lines 305-317 (branch 2, website found but scrape failed). -/
def phInfoTool2 (cq today wurl : String) (best : PhProduct) : Tool :=
  { name := best.name
    description := best.description
    url := wurl
    source := "ProductHunt"
    upvotes := best.upvotes
    imageUrl := best.imageUrl
    pros := some (generateDefaultPros best.name cq)
    cons := some generateDefaultCons
    useCases := some (generateDefaultUseCases cq)
    lastUpdated := today
    categories := some [cq, "AI"]
    badges := []
    videoEmbed := ""
    pricing := ""
    tagline := ""
    rating := none
    screenshots := none }

/-- The tool of lines 321-333 (branch 2, no `Visit Website` link found). -/
def noWebsiteTool2 (cq today : String) (best : PhProduct) : Tool :=
  { name := best.name
    description := best.description
    url := best.url
    source := "ProductHunt"
    upvotes := best.upvotes
    imageUrl := best.imageUrl
    pros := some (generateDefaultPros best.name cq)
    cons := some generateDefaultCons
    useCases := some (generateDefaultUseCases cq)
    lastUpdated := today
    categories := some [cq, "AI"]
    badges := []
    videoEmbed := ""
    pricing := ""
    tagline := ""
    rating := none
    screenshots := none }

/-- The tool of lines 338-350 (branch 2, candidate URL empty or not a
ProductHunt link): the push copies `bestProduct.url` unchecked. -/
def directTool2 (cq today : String) (best : PhProduct) : Tool :=
  { name := best.name
    description := best.description
    url := best.url
    source := "ProductHunt"
    upvotes := best.upvotes
    imageUrl := best.imageUrl
    pros := some (generateDefaultPros best.name cq)
    cons := some generateDefaultCons
    useCases := some (generateDefaultUseCases cq)
    lastUpdated := today
    categories := some [cq, "AI"]
    badges := []
    videoEmbed := ""
    pricing := ""
    tagline := ""
    rating := none
    screenshots := none }

/-- A tool of the article-fallback loop, lines 354-367 (branch 2, every
candidate was a listicle): note that it carries NO pros/cons/useCases. -/
def articleTool2 (cq : String) (p : PhProduct) : Tool :=
  { name := p.name
    description := p.description
    url := if p.url != "" then p.url else phSearchUrlPlain cq
    source := "ProductHunt"
    upvotes := p.upvotes
    imageUrl := p.imageUrl
    categories := some (p.categories.getD [cq, "AI"])
    badges := []
    videoEmbed := ""
    pricing := ""
    tagline := ""
    lastUpdated := ""
    rating := none
    pros := none
    cons := none
    useCases := none
    screenshots := none }

/-- The candidate filter of lines 216-222: a name, a description, and no
listicle marker — note that no URL is required here. -/
def actualProducts2 (products : List PhProduct) : List PhProduct :=
  products.filter (fun p => p.name != "" && p.description != "" && !isListicle p.name)

/-- Branch 2 (lines 204-370): the specialized `scrapeProductHuntSearch`
fallback.  When the best candidate has a ProductHunt URL the product page is
scraped and the `Visit Website` link regex is applied; if the product-page
scrape fails, NOTHING is pushed and control falls through to branch 3. -/
def branch2 (cq : String) (env : Env) : List Tool :=
  match env.phSearch with
  | none => []
  | some products =>
    if products.length > 0 then
      match actualProducts2 products with
      | best :: _ =>
        if best.url != "" && strContains best.url "producthunt.com" then
          match env.productPage with
          | some html =>
            if html != "" then
              match findVisitWebsiteLink html with
              | some wurl =>
                if env.websiteScrape2 then
                  [completeTool2 cq env.today wurl best (env.websiteExtraction2.getD emptyDetails)]
                else
                  [phInfoTool2 cq env.today wurl best]
              | none => [noWebsiteTool2 cq env.today best]
            else []
          | none => []
        else
          [directTool2 cq env.today best]
      | [] =>
        products.filterMap (fun p =>
          if p.name != "" && p.description != "" then some (articleTool2 cq p)
          else none)
    else []

/-- The enriched tool of lines 427-445 (branch 3, extraction succeeded). -/
def completeTool3 (cq today : String) (r : SearchDoc) (pd : ProductDetails) : Tool :=
  { name :=
      if pd.name != "" then pd.name
      else if r.title != "" then r.title else "AI " ++ cq ++ " Tool"
    description :=
      if pd.description != "" then pd.description
      else if r.description != "" then r.description else "An AI tool for " ++ cq
    url := r.url
    source := "Product Search"
    imageUrl := pd.imageUrl
    pros := some (pd.pros.getD (generateDefaultPros
      (if r.title != "" then r.title else "AI " ++ cq ++ " Tool") cq))
    cons := some (pd.cons.getD generateDefaultCons)
    useCases := some (pd.useCases.getD (generateDefaultUseCases cq))
    pricing := pd.pricing
    videoEmbed := pd.videoEmbed
    screenshots := pd.screenshots
    badges := ["AI", cq]
    lastUpdated := today
    categories := some [cq, "AI"]
    tagline := ""
    rating := none
    upvotes := none }

/-- The limited-information tool of lines 448-458 and 462-472 (branch 3). -/
def limitedTool3 (cq today : String) (r : SearchDoc) : Tool :=
  { name := if r.title != "" then r.title else "AI " ++ cq ++ " Tool"
    description := if r.description != "" then r.description else "An AI tool for " ++ cq
    url := r.url
    source := "Product Search"
    pros := some (generateDefaultPros
      (if r.title != "" then r.title else "AI " ++ cq ++ " Tool") cq)
    cons := some generateDefaultCons
    useCases := some (generateDefaultUseCases cq)
    lastUpdated := today
    categories := some [cq, "AI"]
    badges := []
    videoEmbed := ""
    pricing := ""
    tagline := ""
    imageUrl := ""
    rating := none
    upvotes := none
    screenshots := none }

/-- The tool of lines 476-486 (branch 3, result without URL — unreachable,
since the `find` condition requires a URL, but kept for faithfulness). -/
def noUrlTool3 (cq today : String) (r : SearchDoc) : Tool :=
  { name := if r.title != "" then r.title else "AI " ++ cq ++ " Tool"
    description := if r.description != "" then r.description else "An AI tool for " ++ cq
    url := phSearchUrlAI cq
    source := "Product Search"
    pros := some (generateDefaultPros
      (if r.title != "" then r.title else "AI " ++ cq ++ " Tool") cq)
    cons := some generateDefaultCons
    useCases := some (generateDefaultUseCases cq)
    lastUpdated := today
    categories := some [cq, "AI"]
    badges := []
    videoEmbed := ""
    pricing := ""
    tagline := ""
    imageUrl := ""
    rating := none
    upvotes := none
    screenshots := none }

/-- The first-result fallback of lines 493-504 (branch 3, no result passed
the product filter). -/
def firstResultTool3 (cq today : String) (first : SearchDoc) : Tool :=
  { name := if first.title != "" then first.title else "AI " ++ cq ++ " Tool"
    description :=
      if first.description != "" then first.description
      else "An AI tool for " ++ cq ++ " tasks."
    url := if first.url != "" then first.url else phSearchUrlAI cq
    source := "Product Search"
    badges := [cq, "AI"]
    pros := some (generateDefaultPros
      (if first.title != "" then first.title else "AI " ++ cq ++ " Tool") cq)
    cons := some generateDefaultCons
    useCases := some (generateDefaultUseCases cq)
    lastUpdated := today
    categories := some [cq, "AI"]
    videoEmbed := ""
    pricing := ""
    tagline := ""
    imageUrl := ""
    rating := none
    upvotes := none
    screenshots := none }

/-- The final synthesized fallback of lines 509-519. -/
def fallbackTool3 (cq today : String) : Tool :=
  { name := "AI " ++ cq ++ " Tool"
    description := "A specialized AI tool for " ++ cq ++ " tasks."
    url := phSearchUrlAI cq
    source := "ProductHunt"
    pros := some (generateDefaultPros ("AI " ++ cq ++ " Tool") cq)
    cons := some generateDefaultCons
    useCases := some (generateDefaultUseCases cq)
    lastUpdated := today
    categories := some [cq, "AI"]
    badges := []
    videoEmbed := ""
    pricing := ""
    tagline := ""
    imageUrl := ""
    rating := none
    upvotes := none
    screenshots := none }

/-- Branch 3 (lines 372-521): plain Firecrawl search, then the final
fallback record.  Every path of this branch pushes exactly one tool. -/
def branch3 (cq : String) (env : Env) : List Tool :=
  match env.fcSearch with
  | none => [fallbackTool3 cq env.today]
  | some docs =>
    if docs.length > 0 then
      match docs.find? (fun r =>
        r.url != "" && r.title != "" &&
        !(strContains (lowerStr r.title) "best") &&
        !(strContains (lowerStr r.title) "top") &&
        !(strContains r.url "producthunt.com/posts/")) with
      | some productResult =>
        if productResult.url != "" then
          if env.websiteScrape3 then
            match env.websiteExtraction3 with
            | some pd => [completeTool3 cq env.today productResult pd]
            | none => [limitedTool3 cq env.today productResult]
          else [limitedTool3 cq env.today productResult]
        else [noUrlTool3 cq env.today productResult]
      | none =>
        match docs with
        | first :: _ => [firstResultTool3 cq env.today first]
        | [] => []
    else [fallbackTool3 cq env.today]

/-- The `tools` array after branches 1 and 2: branch 2 runs only when
branch 1 pushed nothing (`if (tools.length === 0)`). -/
def step2 (cq : String) (env : Env) : List Tool :=
  if (branch1 cq env).isEmpty then branch2 cq env else branch1 cq env

/-- The `tools` array after branch 3, which runs only when branches 1-2
pushed nothing. -/
def step3 (cq : String) (env : Env) : List Tool :=
  if (step2 cq env).isEmpty then branch3 cq env else step2 cq env

/-- Function `findTools` (`tool-finder.ts` lines 35-560): the three branches in
order, then the final `tools.slice(0, 1)`. -/
def findTools (query : String) (env : Env) : List Tool :=
  (step3 (cleanQuery query) env).take 1

/-- Function `sortToolsByRelevance` (`tool-finder.ts` lines 919-958; defined in the
source but never called by `findTools`): `analysis` is the JSON-parse of the
reply of the ranking LLM (`none` when the call threw, the parse failed, or the
parse was not an array).  When a non-empty array parses, it is returned
VERBATIM — no check against the input set. -/
def sortToolsByRelevance (tools : List Tool) (analysis : Option (List Tool)) : List Tool :=
  if tools.isEmpty then []
  else
    match analysis with
    | none => tools
    | some ranked => if ranked.isEmpty then tools else ranked

end SrcFinder

/-! ## The discovery pipeline of `src/unnamed/part_003`

This `findTools` variant searches ProductHunt via `scrapeToolSearch`, falls
back to a generic Firecrawl web search, processes at most three raw
candidates (FIRE-1 agent extraction, then an Azure-OpenAI enhancement whose
thrown errors propagate to the outer catch), fills every missing list with
templated defaults, and ranks by relevance when more than one tool survived.
Enhancement data parsed from the LLM is spread over the partial record, so
every field it carries (even an empty string or empty list) overwrites;
fields the reply does not carry leave the record unchanged — hence the
`Option` fields of `EnhanceData`.  Numeric fields of the enhancement reply
(`upvotes`, `rating`) never affect the claims below and are not modelled. -/

namespace P3Finder

/-- The `AppTool` record of `part_003` (`pricing` is modelled as the string
variant of `string | ToolPricingTier[]`). -/
structure AppTool where
  name : String
  description : String
  url : String
  source : String
  tagline : String
  categories : List String
  upvotes : Option Nat
  features : List String
  useCases : List String
  pricing : String
  screenshots : List String
  videoEmbed : String
  pros : List String
  cons : List String
  lastUpdated : String
  badges : List String
  rating : Option Nat
  imageUrl : String
  websiteUrl : String
deriving DecidableEq

/-- A product object from the `json.products` payload of `scrapeToolSearch`. -/
structure RawProduct where
  name : String
  description : String
  url : String
  tagline : String
  imageUrl : String
  upvotes : Option Nat
  categories : Option (List String)
deriving DecidableEq

/-- A document from the generic Firecrawl web search. -/
structure SearchItem where
  url : String
  title : String
  markdown : String
  content : String
deriving DecidableEq

/-- An entry of `foundRawTools` (the raw candidate plus its source tag). -/
structure RawTool where
  name : String
  description : String
  url : String
  tagline : String
  imageUrl : String
  upvotes : Option Nat
  categories : Option (List String)
  sourceName : String
deriving DecidableEq

/-- The JSON payload of a successful FIRE-1 `extractToolInfoWithAgent` call.
List fields are used as `agentData.xs || []` in the source, where a present
empty array and an absent field coincide — except `categories`, which is
used as `agentData.categories || previous` (a present `[]` is truthy and
kept), hence its `Option`. -/
structure AgentData where
  name : String
  description : String
  tagline : String
  pricing : String
  websiteUrl : String
  imageUrl : String
  videoUrl : String
  features : List String
  useCases : List String
  pros : List String
  cons : List String
  categories : Option (List String)
deriving DecidableEq

/-- Fields of a parsed `enhance_tool_details` reply; each present field
overwrites the partial record via object spread. -/
structure EnhanceData where
  name : Option String
  description : Option String
  url : Option String
  source : Option String
  tagline : Option String
  pricing : Option String
  websiteUrl : Option String
  imageUrl : Option String
  videoEmbed : Option String
  lastUpdated : Option String
  features : Option (List String)
  useCases : Option (List String)
  pros : Option (List String)
  cons : Option (List String)
  categories : Option (List String)
  screenshots : Option (List String)
  badges : Option (List String)
deriving DecidableEq

/-- Outcome of the `analyzeTool` enhancement call for one candidate:
the call rejected (its error propagates to the outer catch of `findTools`), the
reply did not `JSON.parse`, or it parsed to an object. -/
inductive EnhanceOutcome where
  | crash : EnhanceOutcome
  | parseFail : EnhanceOutcome
  | parsed : EnhanceData → EnhanceOutcome

/-- Outcomes of the external calls made by this `findTools`.  `rank` is the
name sequence of the parsed ranking reply (`none` when the ranking call threw
or its reply did not parse to an array). -/
structure Env where
  ph : Option (List RawProduct)
  search : Option (List SearchItem)
  agent : Nat → Option AgentData
  enhance : Nat → EnhanceOutcome
  rank : Option (List String)
  today : String

/-- Function `generateDefaultFeatures` (`part_003` lines 259-265). -/
def generateDefaultFeatures (toolName query : String) : List String :=
  ["AI-powered " ++ query ++ " capabilities",
   "Intuitive interface for " ++ toolName,
   "Automates " ++ query ++ " tasks effectively"]

/-- Function `generateDefaultPros` (`part_003` lines 266-272). -/
def generateDefaultPros (toolName query : String) : List String :=
  [toolName ++ " offers an intuitive interface for " ++ query ++ " tasks",
   "Advanced AI algorithms for accurate results related to " ++ query,
   "Time-saving automation for " ++ query ++ " workflows"]

/-- Function `generateDefaultCons` (`part_003` lines 273-278). -/
def generateDefaultCons : List String :=
  ["Advanced features may have a learning curve or require a subscription",
   "Specific integrations might be limited"]

/-- Function `generateDefaultUseCases` (`part_003` lines 279-285). -/
def generateDefaultUseCases (query : String) : List String :=
  ["Automated " ++ query ++ " for various applications",
   "Generating insights from " ++ query ++ " data",
   "Streamlining " ++ query ++ " workflows with AI assistance"]

/-- Function `createFallbackTool` (`part_003` lines 287-305). -/
def createFallbackTool (query source today : String) : AppTool :=
  let cq := String.mk (jsTrimL (query.toList.filter (fun c => isWordChar c || isWsChar c)))
  let toolName := "AI " ++ capitalizeFirst cq ++ " Tool"
  let gUrl := "https://www.google.com/search?q=" ++ encodeURIComponent (query ++ " AI tool")
  { name := toolName
    description := "A versatile AI tool for " ++ query ++
      ". Designed to assist with various tasks using advanced AI. Please visit the website for specific details. This is a fallback entry."
    url := gUrl
    source := source
    categories := [query, "AI", "Fallback"]
    features := generateDefaultFeatures toolName query
    useCases := generateDefaultUseCases query
    pros := generateDefaultPros toolName query
    cons := generateDefaultCons
    lastUpdated := today
    pricing := "Visit website for details"
    tagline := "Your AI assistant for " ++ query
    websiteUrl := gUrl
    upvotes := none
    screenshots := []
    videoEmbed := ""
    badges := []
    rating := none
    imageUrl := "" }

/-- The raw candidates harvested from the ProductHunt source (lines 89-105):
products with a truthy `name` and `url`. -/
def phRawTools (ps : List RawProduct) : List RawTool :=
  (ps.filter (fun p => p.name != "" && p.url != "")).map (fun p =>
    { name := p.name, description := p.description, url := p.url,
      tagline := p.tagline, imageUrl := p.imageUrl, upvotes := p.upvotes,
      categories := p.categories, sourceName := "ProductHunt" })

/-- The raw candidates harvested from the generic web search (lines 108-127):
items with a truthy `url` and `title` whose title carries no listicle
marker; the description is `item.markdown || item.content`. -/
def searchRawTools (items : List SearchItem) : List RawTool :=
  (items.filter (fun it =>
    it.url != "" && it.title != "" &&
    !(strContains (lowerStr it.title) "best") &&
    !(strContains (lowerStr it.title) "top"))).map (fun it =>
    { name := it.title
      description := if it.markdown != "" then it.markdown else it.content
      url := it.url, tagline := "", imageUrl := "", upvotes := none,
      categories := none, sourceName := "GenericWebSearch" })

/-- The `foundRawTools` array: the ProductHunt source, else the generic search. -/
def rawToolsOf (env : Env) : List RawTool :=
  let fromPh := match env.ph with | some ps => phRawTools ps | none => []
  if fromPh.isEmpty then
    match env.search with
    | some items => searchRawTools items
    | none => []
  else fromPh

/-- The partial record `detailedToolInfo` (a `Partial<AppTool>`; string
fields are `""` when unset, list fields are `[]` when unset — the source
only distinguishes them via `?.length`, which identifies the two — except
`badges`, used as `badges || default` where `[]` is truthy). -/
structure DetailedInfo where
  name : String
  description : String
  url : String
  source : String
  tagline : String
  upvotes : Option Nat
  imageUrl : String
  categories : List String
  websiteUrl : String
  features : List String
  useCases : List String
  pros : List String
  cons : List String
  pricing : String
  videoEmbed : String
  lastUpdated : String
  screenshots : List String
  badges : Option (List String)
  rating : Option Nat
deriving DecidableEq

/-- The initializer of `detailedToolInfo` (lines 144-154). -/
def initDetailed (raw : RawTool) : DetailedInfo :=
  { name := raw.name
    description := raw.description
    url := raw.url
    source := raw.sourceName
    tagline := raw.tagline
    upvotes := raw.upvotes
    imageUrl := raw.imageUrl
    categories := raw.categories.getD []
    websiteUrl := raw.url
    features := [], useCases := [], pros := [], cons := []
    pricing := "", videoEmbed := "", lastUpdated := ""
    screenshots := [], badges := none, rating := none }

/-- The FIRE-1 merge of lines 162-176. -/
def agentMerge (initialUrl : String) (a : AgentData) (d : DetailedInfo) : DetailedInfo :=
  { d with
    name := if a.name != "" then a.name else d.name
    description := if a.description != "" then a.description else d.description
    tagline := if a.tagline != "" then a.tagline else d.tagline
    features := a.features
    useCases := a.useCases
    pros := a.pros
    cons := a.cons
    pricing := a.pricing
    websiteUrl := if a.websiteUrl != "" then a.websiteUrl else initialUrl
    imageUrl := if a.imageUrl != "" then a.imageUrl else d.imageUrl
    videoEmbed := a.videoUrl
    categories := a.categories.getD d.categories }

/-- The object-spread merge `{...detailedToolInfo, ...parsedEnhancement}`
of line 188. -/
def enhanceMerge (e : EnhanceData) (d : DetailedInfo) : DetailedInfo :=
  { name := e.name.getD d.name
    description := e.description.getD d.description
    url := e.url.getD d.url
    source := e.source.getD d.source
    tagline := e.tagline.getD d.tagline
    upvotes := d.upvotes
    imageUrl := e.imageUrl.getD d.imageUrl
    categories := e.categories.getD d.categories
    websiteUrl := e.websiteUrl.getD d.websiteUrl
    features := e.features.getD d.features
    useCases := e.useCases.getD d.useCases
    pros := e.pros.getD d.pros
    cons := e.cons.getD d.cons
    pricing := e.pricing.getD d.pricing
    videoEmbed := e.videoEmbed.getD d.videoEmbed
    lastUpdated := e.lastUpdated.getD d.lastUpdated
    screenshots := e.screenshots.getD d.screenshots
    badges := match e.badges with | some b => some b | none => d.badges
    rating := d.rating }

/-- The `finalTool` construction of lines 194-214: every essential field is
defaulted, and the feature/use-case/pros/cons lists fall back to the
templated defaults whenever they are empty. -/
def mkFinalTool (cq today initialUrl sourceName : String) (d : DetailedInfo) : AppTool :=
  { name := if d.name != "" then d.name else "Unnamed AI Tool"
    description :=
      if d.description != "" then d.description
      else "An AI tool for " ++ cq ++ ". Visit the website to learn more."
    url := if d.websiteUrl != "" then d.websiteUrl else initialUrl
    source := if d.source != "" then d.source else sourceName
    tagline := d.tagline
    categories := if !d.categories.isEmpty then d.categories else [cq, "AI"]
    upvotes := d.upvotes
    features :=
      if !d.features.isEmpty then d.features
      else generateDefaultFeatures (if d.name != "" then d.name else "tool") cq
    useCases :=
      if !d.useCases.isEmpty then d.useCases else generateDefaultUseCases cq
    pricing := if d.pricing != "" then d.pricing else "Check website"
    screenshots := d.screenshots
    videoEmbed := d.videoEmbed
    pros :=
      if !d.pros.isEmpty then d.pros
      else generateDefaultPros (if d.name != "" then d.name else "tool") cq
    cons := if !d.cons.isEmpty then d.cons else generateDefaultCons
    lastUpdated := if d.lastUpdated != "" then d.lastUpdated else today
    badges := d.badges.getD ["AI", cq]
    rating := d.rating
    imageUrl := d.imageUrl
    websiteUrl := if d.websiteUrl != "" then d.websiteUrl else initialUrl }

/-- Processing of one raw candidate (lines 139-216).  When the agent
extraction fails, the `!detailedToolInfo.features || !detailedToolInfo.useCases`
guard is vacuously true (neither was ever set), so the OpenAI enhancement is
always attempted; a rejected enhancement call propagates (`Except.error`). -/
def processOne (cq today : String) (raw : RawTool) (agent : Option AgentData)
    (enh : EnhanceOutcome) : Except Unit AppTool :=
  let d0 := initDetailed raw
  match agent with
  | some a => .ok (mkFinalTool cq today raw.url raw.sourceName (agentMerge raw.url a d0))
  | none =>
    match enh with
    | .crash => .error ()
    | .parseFail => .ok (mkFinalTool cq today raw.url raw.sourceName d0)
    | .parsed e => .ok (mkFinalTool cq today raw.url raw.sourceName (enhanceMerge e d0))

/-- The sequential candidate loop (`for (const rawTool of toolsToProcess)`),
indexed so the environment can assign each candidate its own call outcomes;
a candidate without a URL is skipped (`continue`), and a crashed enhancement
aborts the whole loop. -/
def processCands (cq today : String) (agent : Nat → Option AgentData)
    (enh : Nat → EnhanceOutcome) : Nat → List RawTool → Except Unit (List AppTool)
  | _, [] => .ok []
  | i, r :: rs =>
    if r.url = "" then processCands cq today agent enh (i + 1) rs
    else
      match processOne cq today r (agent i) (enh i) with
      | .error () => .error ()
      | .ok t =>
        match processCands cq today agent enh (i + 1) rs with
        | .error () => .error ()
        | .ok ts => .ok (t :: ts)

/-- The ranked-list reconstruction of lines 235-237:
`rankedTools.map(rt => processedTools.find(pt => pt.name === rt.name)).filter(Boolean)`. -/
def rankReconstruct (tools : List AppTool) (names : List String) : List AppTool :=
  (names.map (fun n => tools.find? (fun t => t.name == n))).filterMap id

/-- The ranking step of lines 224-248 (executed when more than one tool was
processed): a parsed non-empty array is name-matched back against the
processed tools, the reconstruction is used only when its size matches, and
every failure path returns the processed tools unchanged. -/
def rankStep (tools : List AppTool) (rank : Option (List String)) : List AppTool :=
  match rank with
  | none => tools
  | some names =>
    if names.length > 0 then
      if (rankReconstruct tools names).length = tools.length then
        rankReconstruct tools names
      else tools
    else tools

/-- Function `findTools` (`part_003` lines 79-256). -/
def findTools (query : String) (env : Env) : List AppTool :=
  if (rawToolsOf env).isEmpty then
    [createFallbackTool (cleanQuery query) "NoSource" env.today]
  else
    match processCands (cleanQuery query) env.today env.agent env.enhance 0
        ((rawToolsOf env).take 3) with
    | .error () => [createFallbackTool query "MainError" env.today]
    | .ok processed =>
      if processed.isEmpty then
        [createFallbackTool (cleanQuery query) "ProcessingFailed" env.today]
      else if processed.length > 1 then rankStep processed env.rank
      else processed

end P3Finder

/-! ## Concrete environments used by the counterexamples and witnesses -/

/-- An environment for `SrcFinder.findTools` in which every discovery path
fails. -/
def srcAllFailEnv (today : String) : SrcFinder.Env :=
  { productScrape := false, extraction := none, websiteScrape := false,
    websiteExtraction := none, phSearch := none, productPage := none,
    websiteScrape2 := false, websiteExtraction2 := none, fcSearch := none,
    websiteScrape3 := false, websiteExtraction3 := none, today := today }

/-- A `scrapeProductHuntSearch` candidate carrying no URL. -/
def urllessPhProduct : SrcFinder.PhProduct :=
  { name := "RealTool", description := "A genuine product", url := "",
    imageUrl := "", upvotes := none, categories := none }

/-- Environment whose only successful call is the specialized ProductHunt
scrape, which returns one genuine product that lacks a `url` field. -/
def srcEnvNoUrl : SrcFinder.Env :=
  { srcAllFailEnv "1/1/2025" with phSearch := some [urllessPhProduct] }

/-- A listicle-only product list from the specialized ProductHunt scrape. -/
def listicleProduct : SrcFinder.PhProduct :=
  { name := "Best AI Writer Tools", description := "An article about tools",
    url := "https://example.com/best", imageUrl := "", upvotes := none,
    categories := none }

/-- Environment whose only successful call is the specialized ProductHunt
scrape, returning only a listicle entry, so the article-fallback loop of
lines 354-367 emits it as a tool without pros/cons/useCases. -/
def srcEnvListicle : SrcFinder.Env :=
  { srcAllFailEnv "1/1/2025" with phSearch := some [listicleProduct] }

/-- An environment for `P3Finder.findTools` in which both sources fail. -/
def p3AllFailEnv (today : String) : P3Finder.Env :=
  { ph := none, search := none, agent := fun _ => none,
    enhance := fun _ => .parseFail, rank := none, today := today }

/-- A minimal `AppTool` with the given name, for the ranking counterexample. -/
def sampleTool (nm : String) : P3Finder.AppTool :=
  { name := nm, description := "d", url := "u", source := "s", tagline := "",
    categories := [], upvotes := none, features := [], useCases := [],
    pricing := "", screenshots := [], videoEmbed := "", pros := [], cons := [],
    lastUpdated := "", badges := [], rating := none, imageUrl := "",
    websiteUrl := "" }

/-- A minimal `tool-finder.ts` `Tool` with the given name, for the
`sortToolsByRelevance` counterexample. -/
def sampleSrcTool (nm : String) : SrcFinder.Tool :=
  { name := nm, description := "d", url := "u", source := "s", badges := [],
    videoEmbed := "", pricing := "", tagline := "", imageUrl := "",
    lastUpdated := "", rating := none, upvotes := none, categories := none,
    pros := none, cons := none, useCases := none, screenshots := none }

/-- A ProductHunt candidate list whose products all carry URLs. -/
def urledPhProduct : SrcFinder.PhProduct :=
  { name := "GoodTool", description := "A genuine product",
    url := "https://www.producthunt.com/posts/goodtool", imageUrl := "",
    upvotes := none, categories := none }

/-- Environment whose only successful call is the specialized ProductHunt
scrape, returning one genuine product that does carry a URL. -/
def srcEnvWithUrl : SrcFinder.Env :=
  { srcAllFailEnv "1/1/2025" with phSearch := some [urledPhProduct] }


/-! ## Normal forms under whitespace collapsing

These Bool predicates support the idempotence analysis of `cleanQuery` (C6):
`collapseWs` output has every whitespace character equal to a plain space and
never two adjacent ones. -/

/-- Every whitespace character is a plain space. -/
def allWsSpace (l : List Char) : Bool :=
  l.all (fun c => !isWsChar c || c == ' ')

/-- No two adjacent whitespace characters. -/
def noAdjWs : List Char → Bool
  | c :: d :: rest => (!(isWsChar c && isWsChar d)) && noAdjWs (d :: rest)
  | _ => true

/-- The head, if any, is not whitespace. -/
def headNotWs (l : List Char) : Bool :=
  match l with
  | [] => true
  | c :: _ => !isWsChar c

/-! ## Basic facts about the string model -/

lemma stringMk_eq_empty_iff (l : List Char) : String.mk l = "" ↔ l = [] := by
  constructor
  · intro h
    have h2 := congrArg String.data h
    simpa using h2
  · intro h
    subst h
    rfl

lemma stringMk_ne_empty (l : List Char) (h : l ≠ []) : String.mk l ≠ "" := by
  intro h2
  exact h ((stringMk_eq_empty_iff l).mp h2)

lemma string_append_ne_empty (a b : String) (h : a.data ≠ []) : a ++ b ≠ "" := by
  intro h2
  have h3 := congrArg String.data h2
  rw [String.data_append] at h3
  simp at h3
  exact h h3.1

/-! ## Facts about whitespace collapsing and trimming (for C5 and C6) -/

lemma collapseAux_all_ws_nil (l : List Char) (h : l.all isWsChar = true) :
    collapseAux true l = [] := by
  induction l with
  | nil => rfl
  | cons c rest ih =>
    simp only [List.all_cons, Bool.and_eq_true] at h
    simp [collapseAux, h.1, ih h.2]

lemma collapseWs_all_ws (l : List Char) (h : l.all isWsChar = true) :
    collapseWs l = [] ∨ collapseWs l = [' '] := by
  cases l with
  | nil => exact Or.inl rfl
  | cons c rest =>
    simp only [List.all_cons, Bool.and_eq_true] at h
    right
    simp [collapseWs, collapseAux, h.1, collapseAux_all_ws_nil rest h.2]

lemma mem_collapseAux_of_mem {c : Char} (hc : isWsChar c = false) :
    ∀ (b : Bool) (l : List Char), c ∈ l → c ∈ collapseAux b l := by
  intro b l
  induction l generalizing b with
  | nil => intro h; cases h
  | cons d rest ih =>
    intro h
    rcases List.mem_cons.mp h with rfl | hmem
    · simp [collapseAux, hc]
    · by_cases hd : isWsChar d
      · cases b with
        | false =>
          simp only [collapseAux, hd, if_pos, Bool.false_eq_true, if_neg, if_true]
          exact List.mem_cons_of_mem _ (ih true hmem)
        | true =>
          simp only [collapseAux, hd, if_pos, if_true]
          exact ih true hmem
      · simp only [collapseAux, hd, if_neg, Bool.false_eq_true]
        exact List.mem_cons_of_mem _ (ih false hmem)

lemma mem_dropWhileWs_of_not_ws {c : Char} (hc : isWsChar c = false) :
    ∀ l : List Char, c ∈ l → c ∈ l.dropWhile isWsChar := by
  intro l
  induction l with
  | nil => intro h; cases h
  | cons d rest ih =>
    intro h
    by_cases hd : isWsChar d
    · rw [List.dropWhile_cons, if_pos hd]
      apply ih
      rcases List.mem_cons.mp h with rfl | hmem
      · rw [hd] at hc; cases hc
      · exact hmem
    · rw [List.dropWhile_cons, if_neg hd]
      exact h

lemma mem_dropTrailWs_of_not_ws {c : Char} (hc : isWsChar c = false) :
    ∀ l : List Char, c ∈ l → c ∈ dropTrailWs l := by
  intro l
  induction l with
  | nil => intro h; cases h
  | cons d rest ih =>
    intro h
    rcases List.mem_cons.mp h with rfl | hmem
    · cases hr : dropTrailWs rest with
      | nil => simp [dropTrailWs, hr, hc]
      | cons x xs => simp [dropTrailWs, hr]
    · have hmem2 := ih hmem
      cases hr : dropTrailWs rest with
      | nil => rw [hr] at hmem2; cases hmem2
      | cons x xs =>
        rw [hr] at hmem2
        simp only [dropTrailWs, hr]
        exact List.mem_cons_of_mem _ hmem2

lemma normWs_eq_nil_iff (l : List Char) :
    jsTrimL (collapseWs l) = [] ↔ l.all isWsChar = true := by
  constructor
  · intro h
    by_contra hna
    obtain ⟨c, hcl, hc⟩ : ∃ c ∈ l, isWsChar c = false := by
      simpa [List.all_eq_true] using hna
    have h1 : c ∈ collapseWs l := mem_collapseAux_of_mem hc false l hcl
    have h2 : c ∈ (collapseWs l).dropWhile isWsChar := mem_dropWhileWs_of_not_ws hc _ h1
    have h3 : c ∈ jsTrimL (collapseWs l) := mem_dropTrailWs_of_not_ws hc _ h2
    rw [h] at h3
    cases h3
  · intro h
    rcases collapseWs_all_ws l h with h0 | h0 <;> rw [h0] <;> decide

/-! ## Facts about the whitespace normal forms (for C6) -/

lemma noAdjWs_tail {c : Char} {rest : List Char} (h : noAdjWs (c :: rest) = true) :
    noAdjWs rest = true := by
  cases rest with
  | nil => rfl
  | cons d rs =>
    simp only [noAdjWs, Bool.and_eq_true] at h
    exact h.2

lemma noAdjWs_cons (c : Char) (r : List Char)
    (h1 : headNotWs r = true ∨ isWsChar c = false) (h2 : noAdjWs r = true) :
    noAdjWs (c :: r) = true := by
  cases r with
  | nil => rfl
  | cons d rs =>
    simp only [noAdjWs, Bool.and_eq_true]
    refine ⟨?_, h2⟩
    rcases h1 with h1 | h1
    · simp only [headNotWs, Bool.not_eq_true'] at h1
      simp [h1]
    · simp [h1]

lemma collapseAux_true_headNotWs (l : List Char) :
    headNotWs (collapseAux true l) = true := by
  induction l with
  | nil => rfl
  | cons c rest ih =>
    by_cases hc : isWsChar c
    · simpa [collapseAux, hc] using ih
    · simp [collapseAux, hc, headNotWs]

lemma collapseAux_allWsSpace (b : Bool) (l : List Char) :
    allWsSpace (collapseAux b l) = true := by
  induction l generalizing b with
  | nil => rfl
  | cons c rest ih
  =>
    by_cases hc : isWsChar c
    · cases b with
      | true => simpa [collapseAux, hc] using ih true
      | false =>
        have := ih true
        simp only [allWsSpace] at this ⊢
        simp [collapseAux, hc, this]
    · have := ih false
      simp only [allWsSpace] at this ⊢
      simp [collapseAux, hc, this]

lemma collapseAux_noAdjWs (b : Bool) (l : List Char) :
    noAdjWs (collapseAux b l) = true := by
  induction l generalizing b with
  | nil => rfl
  | cons c rest ih =>
    by_cases hc : isWsChar c
    · cases b with
      | true => simpa [collapseAux, hc] using ih true
      | false =>
        simp only [collapseAux, hc, if_pos, Bool.false_eq_true, if_neg, if_true]
        exact noAdjWs_cons _ _ (Or.inl (collapseAux_true_headNotWs rest)) (ih true)
    · simp only [collapseAux, hc, if_neg, Bool.false_eq_true]
      exact noAdjWs_cons _ _ (Or.inr (by simpa using hc)) (ih false)

lemma collapseAux_eq_self (l : List Char)
    (h1 : allWsSpace l = true) (h2 : noAdjWs l = true) :
    collapseAux false l = l ∧ (headNotWs l = true → collapseAux true l = l) := by
  induction l with
  | nil => exact ⟨rfl, fun _ => rfl⟩
  | cons c rest ih =>
    have h1' : allWsSpace rest = true ∧ (!isWsChar c || c == ' ') = true := by
      simp only [allWsSpace, List.all_cons, Bool.and_eq_true] at h1
      exact ⟨h1.2, h1.1⟩
    obtain ⟨ihf, iht⟩ := ih h1'.1 (noAdjWs_tail h2)
    by_cases hc : isWsChar c
    · have hcsp : c = ' ' := by
        have := h1'.2
        simp only [hc, Bool.not_true, Bool.false_or, beq_iff_eq] at this
        exact this
      have hrest_head : headNotWs rest = true := by
        cases rest with
        | nil => rfl
        | cons d rs =>
          simp only [noAdjWs, Bool.and_eq_true] at h2
          have := h2.1
          simp only [hc, Bool.true_and, Bool.not_eq_true'] at this
          simp [headNotWs, this]
      constructor
      · subst hcsp
        have hsp : isWsChar ' ' = true := by decide
        simp [collapseAux, hsp, iht hrest_head]
      · intro hhead
        simp [headNotWs, hc] at hhead
    · constructor
      · simp [collapseAux, hc, ihf]
      · intro _
        simp [collapseAux, hc, ihf]

lemma allWsSpace_dropWhile (l : List Char) (h : allWsSpace l = true) :
    allWsSpace (l.dropWhile isWsChar) = true := by
  induction l with
  | nil => exact h
  | cons c rest ih =>
    simp only [allWsSpace, List.all_cons, Bool.and_eq_true] at h
    by_cases hc : isWsChar c
    · rw [List.dropWhile_cons, if_pos hc]
      exact ih h.2
    · rw [List.dropWhile_cons, if_neg hc]
      simp only [allWsSpace, List.all_cons, Bool.and_eq_true]
      exact ⟨h.1, h.2⟩

lemma allWsSpace_dropTrail (l : List Char) (h : allWsSpace l = true) :
    allWsSpace (dropTrailWs l) = true := by
  induction l with
  | nil => exact h
  | cons c rest ih =>
    simp only [allWsSpace, List.all_cons, Bool.and_eq_true] at h
    cases hr : dropTrailWs rest with
    | nil =>
      simp only [dropTrailWs, hr]
      by_cases hc : isWsChar c
      · rw [if_pos hc]; rfl
      · rw [if_neg hc]
        simpa [allWsSpace] using h.1
    | cons x xs =>
      have := ih h.2
      rw [hr] at this
      simp only [dropTrailWs, hr]
      simp only [allWsSpace, List.all_cons, Bool.and_eq_true] at this ⊢
      exact ⟨h.1, this⟩

lemma noAdjWs_dropWhile (l : List Char) (h : noAdjWs l = true) :
    noAdjWs (l.dropWhile isWsChar) = true := by
  induction l with
  | nil => exact h
  | cons c rest ih =>
    by_cases hc : isWsChar c
    · rw [List.dropWhile_cons, if_pos hc]
      exact ih (noAdjWs_tail h)
    · rw [List.dropWhile_cons, if_neg hc]
      exact h

lemma dropTrailWs_head? (l : List Char) :
    dropTrailWs l = [] ∨ (dropTrailWs l).head? = l.head? := by
  cases l with
  | nil => exact Or.inl rfl
  | cons c rest =>
    cases hr : dropTrailWs rest with
    | nil =>
      simp only [dropTrailWs, hr]
      by_cases hc : isWsChar c
      · rw [if_pos hc]; exact Or.inl rfl
      · rw [if_neg hc]; exact Or.inr rfl
    | cons x xs =>
      simp only [dropTrailWs, hr]
      exact Or.inr rfl

lemma noAdjWs_dropTrail (l : List Char) (h : noAdjWs l = true) :
    noAdjWs (dropTrailWs l) = true := by
  induction l with
  | nil => exact h
  | cons c rest ih =>
    have hr' := ih (noAdjWs_tail h)
    cases hr : dropTrailWs rest with
    | nil =>
      simp only [dropTrailWs, hr]
      by_cases hc : isWsChar c
      · rw [if_pos hc]; rfl
      · rw [if_neg hc]; rfl
    | cons x xs =>
      rw [hr] at hr'
      simp only [dropTrailWs, hr]
      apply noAdjWs_cons _ _ _ hr'
      cases rest with
      | nil => simp [dropTrailWs] at hr
      | cons d rs =>
        rcases dropTrailWs_head? (d :: rs) with hnil | hhead
        · rw [hnil] at hr; cases hr
        · rw [hr] at hhead
          simp only [List.head?] at hhead
          have hxd : x = d := by injection hhead
          subst hxd
          simp only [noAdjWs, Bool.and_eq_true] at h
          by_cases hcw : isWsChar c
          · left
            have := h.1
            simp only [hcw, Bool.true_and, Bool.not_eq_true'] at this
            simp [headNotWs, this]
          · right
            simpa using hcw

lemma headNotWs_dropWhile (l : List Char) :
    headNotWs (l.dropWhile isWsChar) = true := by
  induction l with
  | nil => rfl
  | cons c rest ih =>
    by_cases hc : isWsChar c
    · rw [List.dropWhile_cons, if_pos hc]; exact ih
    · rw [List.dropWhile_cons, if_neg hc]
      simpa [headNotWs] using hc

lemma headNotWs_dropTrail (l : List Char) (h : headNotWs l = true) :
    headNotWs (dropTrailWs l) = true := by
  cases l with
  | nil => rfl
  | cons c rest =>
    cases hr : dropTrailWs rest with
    | nil =>
      simp only [dropTrailWs, hr]
      by_cases hc : isWsChar c
      · rw [if_pos hc]; rfl
      · rw [if_neg hc]; simpa [headNotWs] using hc
    | cons x xs =>
      simp only [dropTrailWs, hr]
      simpa [headNotWs] using h

lemma dropWhile_eq_self_of_headNotWs (l : List Char) (h : headNotWs l = true) :
    l.dropWhile isWsChar = l := by
  cases l with
  | nil => rfl
  | cons c rest =>
    simp only [headNotWs, Bool.not_eq_true'] at h
    rw [List.dropWhile_cons, if_neg (by simp [h])]

lemma dropTrailWs_cons_of_ne_nil (c x : Char) (l xs : List Char)
    (h : dropTrailWs l = x :: xs) : dropTrailWs (c :: l) = c :: x :: xs := by
  simp only [dropTrailWs, h]

lemma dropTrailWs_idem (l : List Char) : dropTrailWs (dropTrailWs l) = dropTrailWs l := by
  induction l with
  | nil => rfl
  | cons c rest ih =>
    cases hr : dropTrailWs rest with
    | nil =>
      simp only [dropTrailWs, hr]
      by_cases hc : isWsChar c
      · rw [if_pos hc]; rfl
      · rw [if_neg hc]
        show dropTrailWs [c] = [c]
        simp [dropTrailWs, hc]
    | cons x xs =>
      rw [hr] at ih
      rw [dropTrailWs_cons_of_ne_nil c x rest xs hr]
      exact dropTrailWs_cons_of_ne_nil c x (x :: xs) xs ih

lemma jsTrimL_idem (l : List Char) : jsTrimL (jsTrimL l) = jsTrimL l := by
  unfold jsTrimL
  rw [dropWhile_eq_self_of_headNotWs _ (headNotWs_dropTrail _ (headNotWs_dropWhile l)),
    dropTrailWs_idem]

lemma cleanQuery_core (m : List Char) :
    jsTrimL (collapseWs (jsTrimL (collapseWs m))) = jsTrimL (collapseWs m) := by
  have hall : allWsSpace (collapseWs m) = true := collapseAux_allWsSpace false m
  have hadj : noAdjWs (collapseWs m) = true := collapseAux_noAdjWs false m
  have hta : allWsSpace (jsTrimL (collapseWs m)) = true :=
    allWsSpace_dropTrail _ (allWsSpace_dropWhile _ hall)
  have htj : noAdjWs (jsTrimL (collapseWs m)) = true :=
    noAdjWs_dropTrail _ (noAdjWs_dropWhile _ hadj)
  have hcoll : collapseWs (jsTrimL (collapseWs m)) = jsTrimL (collapseWs m) :=
    (collapseAux_eq_self _ hta htj).1
  rw [hcoll, jsTrimL_idem]

/-! ## Length and membership facts about the pipelines (C1, C10) -/

lemma take_one_length {α : Type} (l : List α) (h : l ≠ []) : (l.take 1).length = 1 := by
  cases l with
  | nil => exact absurd rfl h
  | cons a rest => simp

lemma branch3_ne_nil (cq : String) (env : SrcFinder.Env) :
    SrcFinder.branch3 cq env ≠ [] := by
  unfold SrcFinder.branch3
  cases henv : env.fcSearch with
  | none => simp
  | some docs =>
    simp only []
    split
    · split
      · split
        · split
          · split <;> simp
          · simp
        · simp
      · split
        · simp
        · simp_all
    · simp

lemma step3_ne_nil (cq : String) (env : SrcFinder.Env) :
    SrcFinder.step3 cq env ≠ [] := by
  unfold SrcFinder.step3
  by_cases h : (SrcFinder.step2 cq env).isEmpty
  · rw [if_pos h]
    exact branch3_ne_nil cq env
  · rw [if_neg h]
    intro hc
    rw [hc] at h
    exact h rfl

lemma findTools_src_length (q : String) (env : SrcFinder.Env) :
    (SrcFinder.findTools q env).length = 1 := by
  unfold SrcFinder.findTools
  exact take_one_length _ (step3_ne_nil _ env)

lemma rankStep_ne_nil (tools : List P3Finder.AppTool) (r : Option (List String))
    (h : tools ≠ []) : P3Finder.rankStep tools r ≠ [] := by
  cases r with
  | none => simpa [P3Finder.rankStep] using h
  | some names =>
    simp only [P3Finder.rankStep]
    by_cases hn : names.length > 0
    · rw [if_pos hn]
      by_cases hl : (P3Finder.rankReconstruct tools names).length = tools.length
      · rw [if_pos hl]
        intro hc
        rw [hc] at hl
        simp only [List.length_nil] at hl
        exact h (List.length_eq_zero.mp hl.symm)
      · rw [if_neg hl]
        exact h
    · rw [if_neg hn]
      exact h

lemma findTools_p3_ne_nil (q : String) (env : P3Finder.Env) :
    P3Finder.findTools q env ≠ [] := by
  unfold P3Finder.findTools
  by_cases h0 : (P3Finder.rawToolsOf env).isEmpty
  · rw [if_pos h0]
    simp
  · rw [if_neg h0]
    cases hp : P3Finder.processCands (cleanQuery q) env.today env.agent env.enhance 0
        ((P3Finder.rawToolsOf env).take 3) with
    | error e => simp
    | ok processed =>
      show (if processed.isEmpty = true then
          [P3Finder.createFallbackTool (cleanQuery q) "ProcessingFailed" env.today]
        else if processed.length > 1 then P3Finder.rankStep processed env.rank
        else processed) ≠ []
      by_cases hpe : processed.isEmpty
      · rw [if_pos hpe]
        simp
      · rw [if_neg hpe]
        have hne : processed ≠ [] := by
          intro hc
          rw [hc] at hpe
          exact hpe rfl
        by_cases hlen : processed.length > 1
        · rw [if_pos hlen]
          exact rankStep_ne_nil _ _ hne
        · rw [if_neg hlen]
          exact hne

/-! ## String non-emptiness helpers -/

lemma string_pre2_ne_empty (p q r : String) (hp : p.data ≠ []) : p ++ q ++ r ≠ "" := by
  apply string_append_ne_empty
  rw [String.data_append]
  intro hc
  rcases List.append_eq_nil.mp hc with ⟨h1, _⟩
  exact hp h1

lemma ite_string_ne_empty (c : Prop) [Decidable c] (a b : String)
    (ha : c → a ≠ "") (hb : ¬c → b ≠ "") : (if c then a else b) ≠ "" := by
  by_cases h : c
  · rw [if_pos h]; exact ha h
  · rw [if_neg h]; exact hb h

/-! ## Membership and field facts about the `part_003` pipeline -/

lemma mem_rankReconstruct {tools : List P3Finder.AppTool} {names : List String}
    {t : P3Finder.AppTool} (h : t ∈ P3Finder.rankReconstruct tools names) : t ∈ tools := by
  unfold P3Finder.rankReconstruct at h
  simp only [List.mem_filterMap, List.mem_map, id_eq] at h
  obtain ⟨o, ⟨n, _, ho⟩, hot⟩ := h
  subst hot
  exact List.mem_of_find?_eq_some ho

lemma mem_rankStep {tools : List P3Finder.AppTool} {r : Option (List String)}
    {t : P3Finder.AppTool} (h : t ∈ P3Finder.rankStep tools r) : t ∈ tools := by
  cases r with
  | none => simpa [P3Finder.rankStep] using h
  | some names =>
    simp only [P3Finder.rankStep] at h
    by_cases hn : names.length > 0
    · rw [if_pos hn] at h
      by_cases hl : (P3Finder.rankReconstruct tools names).length = tools.length
      · rw [if_pos hl] at h
        exact mem_rankReconstruct h
      · rw [if_neg hl] at h
        exact h
    · rw [if_neg hn] at h
      exact h

lemma mkFinalTool_lists (cq today iu sn : String) (d : P3Finder.DetailedInfo) :
    (P3Finder.mkFinalTool cq today iu sn d).features ≠ [] ∧
    (P3Finder.mkFinalTool cq today iu sn d).useCases ≠ [] ∧
    (P3Finder.mkFinalTool cq today iu sn d).pros ≠ [] ∧
    (P3Finder.mkFinalTool cq today iu sn d).cons ≠ [] := by
  refine ⟨?_, ?_, ?_, ?_⟩
  · show (if !d.features.isEmpty then d.features
      else P3Finder.generateDefaultFeatures (if d.name != "" then d.name else "tool") cq) ≠ []
    split
    · simp_all
    · simp [P3Finder.generateDefaultFeatures]
  · show (if !d.useCases.isEmpty then d.useCases
      else P3Finder.generateDefaultUseCases cq) ≠ []
    split
    · simp_all
    · simp [P3Finder.generateDefaultUseCases]
  · show (if !d.pros.isEmpty then d.pros
      else P3Finder.generateDefaultPros (if d.name != "" then d.name else "tool") cq) ≠ []
    split
    · simp_all
    · simp [P3Finder.generateDefaultPros]
  · show (if !d.cons.isEmpty then d.cons else P3Finder.generateDefaultCons) ≠ []
    split
    · simp_all
    · simp [P3Finder.generateDefaultCons]

lemma mkFinalTool_core (cq today iu sn : String) (d : P3Finder.DetailedInfo)
    (hiu : iu ≠ "") :
    (P3Finder.mkFinalTool cq today iu sn d).name ≠ "" ∧
    (P3Finder.mkFinalTool cq today iu sn d).description ≠ "" ∧
    (P3Finder.mkFinalTool cq today iu sn d).url ≠ "" := by
  refine ⟨?_, ?_, ?_⟩
  · show (if d.name != "" then d.name else "Unnamed AI Tool") ≠ ""
    split
    · simp_all
    · decide
  · show (if d.description != "" then d.description
      else "An AI tool for " ++ cq ++ ". Visit the website to learn more.") ≠ ""
    split
    · simp_all
    · exact string_pre2_ne_empty _ _ _ (by decide)
  · show (if d.websiteUrl != "" then d.websiteUrl else iu) ≠ ""
    split
    · simp_all
    · exact hiu

lemma createFallbackTool_props (q s d : String) :
    (P3Finder.createFallbackTool q s d).name ≠ "" ∧
    (P3Finder.createFallbackTool q s d).description ≠ "" ∧
    (P3Finder.createFallbackTool q s d).url ≠ "" ∧
    (P3Finder.createFallbackTool q s d).features ≠ [] ∧
    (P3Finder.createFallbackTool q s d).useCases ≠ [] ∧
    (P3Finder.createFallbackTool q s d).pros ≠ [] ∧
    (P3Finder.createFallbackTool q s d).cons ≠ [] := by
  refine ⟨?_, ?_, ?_, ?_, ?_, ?_, ?_⟩
  · exact string_pre2_ne_empty "AI " _ " Tool" (by decide)
  · exact string_pre2_ne_empty "A versatile AI tool for " _ _ (by decide)
  · exact string_append_ne_empty "https://www.google.com/search?q=" _ (by decide)
  · simp [P3Finder.createFallbackTool, P3Finder.generateDefaultFeatures]
  · simp [P3Finder.createFallbackTool, P3Finder.generateDefaultUseCases]
  · simp [P3Finder.createFallbackTool, P3Finder.generateDefaultPros]
  · simp [P3Finder.createFallbackTool, P3Finder.generateDefaultCons]

lemma processOne_ok_shape {cq today : String} {raw : P3Finder.RawTool}
    {ag : Option P3Finder.AgentData} {enh : P3Finder.EnhanceOutcome}
    {t : P3Finder.AppTool}
    (h : P3Finder.processOne cq today raw ag enh = .ok t) :
    ∃ d, t = P3Finder.mkFinalTool cq today raw.url raw.sourceName d := by
  cases ag with
  | some a =>
    have h' : Except.ok (P3Finder.mkFinalTool cq today raw.url raw.sourceName
        (P3Finder.agentMerge raw.url a (P3Finder.initDetailed raw))) = Except.ok t := h
    injection h' with h'
    exact ⟨_, h'.symm⟩
  | none =>
    cases enh with
    | crash =>
      have h' : (Except.error () : Except Unit P3Finder.AppTool) = Except.ok t := h
      exact Except.noConfusion h'
    | parseFail =>
      have h' : Except.ok (P3Finder.mkFinalTool cq today raw.url raw.sourceName
          (P3Finder.initDetailed raw)) = Except.ok t := h
      injection h' with h'
      exact ⟨_, h'.symm⟩
    | parsed e =>
      have h' : Except.ok (P3Finder.mkFinalTool cq today raw.url raw.sourceName
          (P3Finder.enhanceMerge e (P3Finder.initDetailed raw))) = Except.ok t := h
      injection h' with h'
      exact ⟨_, h'.symm⟩

lemma mem_processCands {cq today : String} {agent : Nat → Option P3Finder.AgentData}
    {enh : Nat → P3Finder.EnhanceOutcome} :
    ∀ (i : Nat) (rs : List P3Finder.RawTool) (ts : List P3Finder.AppTool),
      P3Finder.processCands cq today agent enh i rs = .ok ts →
      ∀ t ∈ ts, ∃ (r : P3Finder.RawTool) (d : P3Finder.DetailedInfo),
        r ∈ rs ∧ r.url ≠ "" ∧ t = P3Finder.mkFinalTool cq today r.url r.sourceName d := by
  intro i rs
  induction rs generalizing i with
  | nil =>
    intro ts h t ht
    simp only [P3Finder.processCands] at h
    injection h with h
    subst h
    cases ht
  | cons r rs' ih =>
    intro ts h t ht
    simp only [P3Finder.processCands] at h
    by_cases hu : r.url = ""
    · rw [if_pos hu] at h
      obtain ⟨r', d, hr, hru, hteq⟩ := ih (i + 1) ts h t ht
      exact ⟨r', d, List.mem_cons_of_mem _ hr, hru, hteq⟩
    · rw [if_neg hu] at h
      cases hp1 : P3Finder.processOne cq today r (agent i) (enh i) with
      | error e =>
        rw [hp1] at h
        simp at h
      | ok t0 =>
        rw [hp1] at h
        cases hp2 : P3Finder.processCands cq today agent enh (i + 1) rs' with
        | error e =>
          rw [hp2] at h
          simp at h
        | ok ts' =>
          rw [hp2] at h
          simp only [] at h
          injection h with h
          subst h
          rcases List.mem_cons.mp ht with rfl | hmem
          · obtain ⟨d, hd⟩ := processOne_ok_shape hp1
            exact ⟨r, d, List.mem_cons_self _ _, hu, hd⟩
          · obtain ⟨r', d, hr, hru, hteq⟩ := ih (i + 1) ts' hp2 t hmem
            exact ⟨r', d, List.mem_cons_of_mem _ hr, hru, hteq⟩

lemma mem_findTools_p3 {q : String} {env : P3Finder.Env} {t : P3Finder.AppTool}
    (h : t ∈ P3Finder.findTools q env) :
    (∃ qq s, t = P3Finder.createFallbackTool qq s env.today) ∨
    (∃ (r : P3Finder.RawTool) (d : P3Finder.DetailedInfo),
      r.url ≠ "" ∧ t = P3Finder.mkFinalTool (cleanQuery q) env.today r.url r.sourceName d) := by
  unfold P3Finder.findTools at h
  by_cases h0 : (P3Finder.rawToolsOf env).isEmpty
  · rw [if_pos h0] at h
    rcases List.mem_singleton.mp h with rfl
    exact Or.inl ⟨_, _, rfl⟩
  · rw [if_neg h0] at h
    revert h
    cases hp : P3Finder.processCands (cleanQuery q) env.today env.agent env.enhance 0
        ((P3Finder.rawToolsOf env).take 3) with
    | error e =>
      intro h
      rcases List.mem_singleton.mp h with rfl
      exact Or.inl ⟨_, _, rfl⟩
    | ok processed =>
      intro h
      replace h : t ∈ (if processed.isEmpty = true then
          [P3Finder.createFallbackTool (cleanQuery q) "ProcessingFailed" env.today]
        else if processed.length > 1 then P3Finder.rankStep processed env.rank
        else processed) := h
      by_cases hpe : processed.isEmpty
      · rw [if_pos hpe] at h
        rcases List.mem_singleton.mp h with rfl
        exact Or.inl ⟨_, _, rfl⟩
      · rw [if_neg hpe] at h
        have hmem : t ∈ processed := by
          by_cases hlen : processed.length > 1
          · rw [if_pos hlen] at h
            exact mem_rankStep h
          · rw [if_neg hlen] at h
            exact h
        obtain ⟨r, d, _, hru, hteq⟩ := mem_processCands 0 _ processed hp t hmem
        exact Or.inr ⟨r, d, hru, hteq⟩

lemma p3_tool_props {q : String} {env : P3Finder.Env} {t : P3Finder.AppTool}
    (h : t ∈ P3Finder.findTools q env) :
    t.name ≠ "" ∧ t.description ≠ "" ∧ t.url ≠ "" ∧
    t.features ≠ [] ∧ t.useCases ≠ [] ∧ t.pros ≠ [] ∧ t.cons ≠ [] := by
  rcases mem_findTools_p3 h with ⟨qq, s, rfl⟩ | ⟨r, d, hru, rfl⟩
  · exact createFallbackTool_props qq s env.today
  · obtain ⟨h1, h2, h3⟩ := mkFinalTool_core _ env.today _ _ d hru
    obtain ⟨h4, h5, h6, h7⟩ := mkFinalTool_lists _ env.today _ _ d
    exact ⟨h1, h2, h3, h4, h5, h6, h7⟩

/-! ## Membership and field facts about the `tool-finder.ts` pipeline -/

lemma aiToolName_ne (cq : String) : ("AI " ++ cq ++ " Tool") ≠ "" :=
  string_pre2_ne_empty _ _ _ (by decide)

lemma phSearchUrlAI_ne (cq : String) : SrcFinder.phSearchUrlAI cq ≠ "" :=
  string_append_ne_empty _ _ (by decide)

lemma phSearchUrlPlain_ne (cq : String) : SrcFinder.phSearchUrlPlain cq ≠ "" :=
  string_append_ne_empty _ _ (by decide)

lemma matchHrefAt_ne_nil {anchor s cap : List Char}
    (h : SrcFinder.matchHrefAt anchor s = some cap) : cap ≠ [] := by
  unfold SrcFinder.matchHrefAt at h
  split at h
  · split at h
    next cap2 s2 heq =>
      split at h
      · exact Option.noConfusion h
      next hne =>
        split at h
        next s3 heq2 =>
          split at h
          · injection h with h
            subst h
            simpa [List.isEmpty_iff] using hne
          · exact Option.noConfusion h
        next => exact Option.noConfusion h
    next => exact Option.noConfusion h
  · exact Option.noConfusion h

lemma findHrefLink_ne_nil {anchor : List Char} :
    ∀ (fuel : Nat) (s cap : List Char),
      SrcFinder.findHrefLink anchor fuel s = some cap → cap ≠ [] := by
  intro fuel
  induction fuel with
  | zero => intro s cap h; exact Option.noConfusion h
  | succ f ih =>
    intro s cap h
    cases s with
    | nil => exact Option.noConfusion h
    | cons c rest =>
      simp only [SrcFinder.findHrefLink] at h
      cases hm : SrcFinder.matchHrefAt anchor (c :: rest) with
      | some cap0 =>
        rw [hm] at h
        injection h with h
        subst h
        exact matchHrefAt_ne_nil hm
      | none =>
        rw [hm] at h
        exact ih rest cap h

lemma findVisitWebsiteLink_ne_empty {html w : String}
    (h : SrcFinder.findVisitWebsiteLink html = some w) : w ≠ "" := by
  unfold SrcFinder.findVisitWebsiteLink at h
  cases h1 : SrcFinder.findHrefLink ("Visit Website".toList) html.toList.length html.toList with
  | some cap =>
    rw [h1] at h
    injection h with h
    subst h
    exact stringMk_ne_empty _ (findHrefLink_ne_nil _ _ _ h1)
  | none =>
    rw [h1] at h
    cases h2 : SrcFinder.findHrefLink ("Website".toList) html.toList.length html.toList with
    | some cap =>
      rw [h2] at h
      simp only [Option.map_some'] at h
      injection h with h
      subst h
      exact stringMk_ne_empty _ (findHrefLink_ne_nil _ _ _ h2)
    | none =>
      rw [h2] at h
      exact Option.noConfusion h

lemma branch1_props {cq : String} {env : SrcFinder.Env} {t : SrcFinder.Tool}
    (h : t ∈ SrcFinder.branch1 cq env) :
    t.name ≠ "" ∧ t.description ≠ "" ∧ t.url ≠ "" := by
  unfold SrcFinder.branch1 at h
  split at h
  · split at h
    · split at h
      · cases h
      next best rest heq =>
        have hbest : best ∈ SrcFinder.actualProducts1 (env.extraction.getD []) := by
          rw [heq]
          exact List.mem_cons_self _ _
        have hpred := (List.mem_filter.mp hbest).2
        simp only [Bool.and_eq_true, bne_iff_ne, ne_eq] at hpred
        obtain ⟨⟨⟨hn, hd⟩, hw⟩, -⟩ := hpred
        split at h
        · rcases List.mem_singleton.mp h with rfl
          exact ⟨hn, hd, hw⟩
        · rcases List.mem_singleton.mp h with rfl
          refine ⟨hn, hd, ?_⟩
          show (if best.websiteUrl != "" then best.websiteUrl else best.url) ≠ ""
          rw [if_pos (by simpa using hw)]
          exact hw
    · cases h
  · cases h

lemma branch2_props {cq : String} {env : SrcFinder.Env} {t : SrcFinder.Tool}
    (h : t ∈ SrcFinder.branch2 cq env) :
    (t.name ≠ "" ∧ t.description ≠ "") ∧
    ((∀ ps, env.phSearch = some ps → ∀ p ∈ ps, p.url ≠ "") → t.url ≠ "") := by
  unfold SrcFinder.branch2 at h
  split at h
  next hph => cases h
  next products hph =>
    split at h
    · split at h
      next best rest heq =>
        have hbest : best ∈ SrcFinder.actualProducts2 products := by
          rw [heq]
          exact List.mem_cons_self _ _
        have hbmem := (List.mem_filter.mp hbest).1
        have hpred := (List.mem_filter.mp hbest).2
        simp only [Bool.and_eq_true, bne_iff_ne, ne_eq] at hpred
        obtain ⟨⟨hn, hd⟩, -⟩ := hpred
        split at h
        next hcond =>
          have hbu : best.url ≠ "" := by
            simp only [Bool.and_eq_true, bne_iff_ne, ne_eq] at hcond
            exact hcond.1
          split at h
          next html heqpage =>
            split at h
            · split at h
              next wurl heqw =>
                have hwne := findVisitWebsiteLink_ne_empty heqw
                split at h
                · rcases List.mem_singleton.mp h with rfl
                  exact ⟨⟨hn, hd⟩, fun _ => hwne⟩
                · rcases List.mem_singleton.mp h with rfl
                  exact ⟨⟨hn, hd⟩, fun _ => hwne⟩
              next heqw =>
                rcases List.mem_singleton.mp h with rfl
                exact ⟨⟨hn, hd⟩, fun _ => hbu⟩
            · cases h
          next heqpage => cases h
        next hcond =>
          rcases List.mem_singleton.mp h with rfl
          refine ⟨⟨hn, hd⟩, fun hps => ?_⟩
          exact hps products hph best hbmem
      next heq =>
        simp only [List.mem_filterMap] at h
        obtain ⟨p, hp, hpf⟩ := h
        by_cases hc : (p.name != "" && p.description != "") = true
        · rw [if_pos hc] at hpf
          injection hpf with hpf
          subst hpf
          simp only [Bool.and_eq_true, bne_iff_ne, ne_eq] at hc
          refine ⟨⟨hc.1, hc.2⟩, fun _ => ?_⟩
          show (if p.url != "" then p.url else SrcFinder.phSearchUrlPlain cq) ≠ ""
          split
          next hcu => simpa using hcu
          next => exact phSearchUrlPlain_ne cq
        · rw [if_neg hc] at hpf
          exact Option.noConfusion hpf
    · cases h

lemma branch3_props {cq : String} {env : SrcFinder.Env} {t : SrcFinder.Tool}
    (h : t ∈ SrcFinder.branch3 cq env) :
    t.name ≠ "" ∧ t.description ≠ "" ∧ t.url ≠ "" := by
  unfold SrcFinder.branch3 at h
  split at h
  next hfc =>
    rcases List.mem_singleton.mp h with rfl
    exact ⟨aiToolName_ne cq, string_pre2_ne_empty _ _ _ (by decide), phSearchUrlAI_ne cq⟩
  next docs hfc =>
    split at h
    · split at h
      next r heqf =>
        have hpred := List.find?_some heqf
        simp only [Bool.and_eq_true, bne_iff_ne, ne_eq] at hpred
        obtain ⟨⟨⟨⟨hu, ht⟩, -⟩, -⟩, -⟩ := hpred
        have hname : (if r.title != "" then r.title else "AI " ++ cq ++ " Tool") ≠ "" := by
          split
          next hc => simpa using hc
          next => exact aiToolName_ne cq
        split at h
        · split at h
          · split at h
            next pd heqe =>
              rcases List.mem_singleton.mp h with rfl
              refine ⟨?_, ?_, hu⟩
              · show (if pd.name != "" then pd.name
                  else if r.title != "" then r.title else "AI " ++ cq ++ " Tool") ≠ ""
                split
                next hc => simpa using hc
                next => exact hname
              · show (if pd.description != "" then pd.description
                  else if r.description != "" then r.description
                  else "An AI tool for " ++ cq) ≠ ""
                split
                next hc => simpa using hc
                next =>
                  split
                  next hc => simpa using hc
                  next => exact string_append_ne_empty _ _ (by decide)
            next heqe =>
              rcases List.mem_singleton.mp h with rfl
              refine ⟨hname, ?_, hu⟩
              show (if r.description != "" then r.description
                else "An AI tool for " ++ cq) ≠ ""
              split
              next hc => simpa using hc
              next => exact string_append_ne_empty _ _ (by decide)
          · rcases List.mem_singleton.mp h with rfl
            refine ⟨hname, ?_, hu⟩
            show (if r.description != "" then r.description
              else "An AI tool for " ++ cq) ≠ ""
            split
            next hc => simpa using hc
            next => exact string_append_ne_empty _ _ (by decide)
        · rcases List.mem_singleton.mp h with rfl
          refine ⟨hname, ?_, phSearchUrlAI_ne cq⟩
          show (if r.description != "" then r.description
            else "An AI tool for " ++ cq) ≠ ""
          split
          next hc => simpa using hc
          next => exact string_append_ne_empty _ _ (by decide)
      next heqf =>
        cases docs with
        | nil => cases h
        | cons f rest =>
          rcases List.mem_singleton.mp h with rfl
          refine ⟨?_, ?_, ?_⟩
          · show (if f.title != "" then f.title else "AI " ++ cq ++ " Tool") ≠ ""
            split
            next hc => simpa using hc
            next => exact aiToolName_ne cq
          · show (if f.description != "" then f.description
              else "An AI tool for " ++ cq ++ " tasks.") ≠ ""
            split
            next hc => simpa using hc
            next => exact string_pre2_ne_empty _ _ _ (by decide)
          · show (if f.url != "" then f.url else SrcFinder.phSearchUrlAI cq) ≠ ""
            split
            next hc => simpa using hc
            next => exact phSearchUrlAI_ne cq
    · rcases List.mem_singleton.mp h with rfl
      exact ⟨aiToolName_ne cq, string_pre2_ne_empty _ _ _ (by decide), phSearchUrlAI_ne cq⟩

lemma mem_step3 {cq : String} {env : SrcFinder.Env} {t : SrcFinder.Tool}
    (h : t ∈ SrcFinder.step3 cq env) :
    t ∈ SrcFinder.branch1 cq env ∨ t ∈ SrcFinder.branch2 cq env ∨
    t ∈ SrcFinder.branch3 cq env := by
  unfold SrcFinder.step3 SrcFinder.step2 at h
  by_cases h2 : (if (SrcFinder.branch1 cq env).isEmpty then SrcFinder.branch2 cq env
      else SrcFinder.branch1 cq env).isEmpty
  · rw [if_pos h2] at h
    exact Or.inr (Or.inr h)
  · rw [if_neg h2] at h
    by_cases h1 : (SrcFinder.branch1 cq env).isEmpty
    · rw [if_pos h1] at h
      exact Or.inr (Or.inl h)
    · rw [if_neg h1] at h
      exact Or.inl h

lemma mem_findTools_src {q : String} {env : SrcFinder.Env} {t : SrcFinder.Tool}
    (h : t ∈ SrcFinder.findTools q env) :
    t ∈ SrcFinder.step3 (cleanQuery q) env := by
  unfold SrcFinder.findTools at h
  exact List.mem_of_mem_take h

lemma src_tool_core {q : String} {env : SrcFinder.Env} {t : SrcFinder.Tool}
    (h : t ∈ SrcFinder.findTools q env) : t.name ≠ "" ∧ t.description ≠ "" := by
  rcases mem_step3 (mem_findTools_src h) with h1 | h2 | h3
  · exact ⟨(branch1_props h1).1, (branch1_props h1).2.1⟩
  · exact (branch2_props h2).1
  · exact ⟨(branch3_props h3).1, (branch3_props h3).2.1⟩

lemma src_tool_url {q : String} {env : SrcFinder.Env} {t : SrcFinder.Tool}
    (hph : ∀ ps, env.phSearch = some ps → ∀ p ∈ ps, p.url ≠ "")
    (h : t ∈ SrcFinder.findTools q env) : t.url ≠ "" := by
  rcases mem_step3 (mem_findTools_src h) with h1 | h2 | h3
  · exact (branch1_props h1).2.2
  · exact (branch2_props h2).2 hph
  · exact (branch3_props h3).2.2

/-! ## Facts about the ranking reconstruction (C3) -/

lemma find?_name_eq_some {tools : List P3Finder.AppTool}
    (hnd : (tools.map (fun t => t.name)).Nodup) {t : P3Finder.AppTool} (ht : t ∈ tools) :
    tools.find? (fun x => x.name == t.name) = some t := by
  induction tools with
  | nil => cases ht
  | cons u rest ih =>
    rw [List.map_cons, List.nodup_cons] at hnd
    rcases List.mem_cons.mp ht with rfl | hmem
    · exact List.find?_cons_of_pos _ (by simp)
    · have hne : ¬((fun x => x.name == t.name) u = true) := by
        simp only [beq_iff_eq]
        intro hc
        exact hnd.1 (hc ▸ List.mem_map_of_mem (fun x => x.name) hmem)
      rw [@List.find?_cons_of_neg _ (fun x => x.name == t.name) u rest hne]
      exact ih hnd.2 hmem

lemma filterMap_eq_map_of {α β : Type} (l : List α) (g : α → Option β) (f : α → β)
    (H : ∀ x ∈ l, g x = some (f x)) : l.filterMap g = l.map f := by
  induction l with
  | nil => rfl
  | cons a rest ih =>
    rw [List.filterMap_cons, H a (List.mem_cons_self _ _), List.map_cons,
      ih (fun x hx => H x (List.mem_cons_of_mem _ hx))]

lemma rankReconstruct_perm {tools : List P3Finder.AppTool} {names : List String}
    (hnd : (tools.map (fun t => t.name)).Nodup)
    (hp : names.Perm (tools.map (fun t => t.name))) :
    (P3Finder.rankReconstruct tools names).Perm tools := by
  unfold P3Finder.rankReconstruct
  have h1 : (names.map (fun n => tools.find? (fun t => t.name == n))).filterMap id =
      names.filterMap (fun n => tools.find? (fun t => t.name == n)) := by
    rw [List.filterMap_map]
    rfl
  have h2 : (tools.map (fun t => t.name)).filterMap
      (fun n => tools.find? (fun t => t.name == n)) = tools := by
    rw [List.filterMap_map]
    have := filterMap_eq_map_of tools
      (fun t => tools.find? (fun x => x.name == t.name)) id
      (fun x hx => find?_name_eq_some hnd hx)
    simpa [Function.comp] using this
  rw [h1]
  have h3 := hp.filterMap (fun n => tools.find? (fun t => t.name == n))
  rw [h2] at h3
  exact h3

/-! ## All-discovery-failure normal forms (C9) -/

lemma findTools_p3_allfail (q : String) (env : P3Finder.Env)
    (h : P3Finder.rawToolsOf env = []) :
    P3Finder.findTools q env =
      [P3Finder.createFallbackTool (cleanQuery q) "NoSource" env.today] := by
  unfold P3Finder.findTools
  rw [if_pos (by simp [h])]

lemma findTools_src_allfail (q : String) (env : SrcFinder.Env)
    (h1 : env.productScrape = false) (h2 : env.phSearch = none)
    (h3 : env.fcSearch = none) :
    SrcFinder.findTools q env =
      [SrcFinder.fallbackTool3 (cleanQuery q) env.today] := by
  have b1 : SrcFinder.branch1 (cleanQuery q) env = [] := by
    simp [SrcFinder.branch1, h1]
  have b2 : SrcFinder.branch2 (cleanQuery q) env = [] := by
    simp [SrcFinder.branch2, h2]
  have b3 : SrcFinder.branch3 (cleanQuery q) env =
      [SrcFinder.fallbackTool3 (cleanQuery q) env.today] := by
    simp [SrcFinder.branch3, h3]
  unfold SrcFinder.findTools SrcFinder.step3 SrcFinder.step2
  rw [b1, b2]
  simp [b3]

/-! # Claims -/

/-- Claim C1: for every non-empty query string, both `findTools`
implementations resolve to an array of length at least 1 — when every
discovery path fails a synthesized fallback record is returned instead of an
empty array or an error. -/
theorem c1_findTools_at_least_one (q : String) (_hq : q ≠ "")
    (envS : SrcFinder.Env) (envP : P3Finder.Env) :
    1 ≤ (SrcFinder.findTools q envS).length ∧
    1 ≤ (P3Finder.findTools q envP).length := by
  constructor
  · rw [findTools_src_length q envS]
  · have hne := findTools_p3_ne_nil q envP
    exact Nat.one_le_iff_ne_zero.mpr (fun hc => hne (List.length_eq_zero.mp hc))

/-- Witness for C1 at the query `"image generation"` with every external
call failing. -/
theorem c1_findTools_at_least_one_witness :
    ("image generation" : String) ≠ "" ∧
    1 ≤ (SrcFinder.findTools "image generation" (srcAllFailEnv "1/1/2025")).length ∧
    1 ≤ (P3Finder.findTools "image generation" (p3AllFailEnv "1/1/2025")).length :=
  ⟨by decide, c1_findTools_at_least_one "image generation" (by decide) _ _⟩

/-- Claim C2, counterexample: when the specialized ProductHunt scrape
returns a genuine product whose `url` field is missing, `findTools`
(`tool-finder.ts` line 338) emits a record whose `url` is empty. -/
theorem c2_counterexample :
    (SrcFinder.findTools "video editing" srcEnvNoUrl).map (fun t => t.url) = [""] ∧
    (SrcFinder.findTools "video editing" srcEnvNoUrl).map (fun t => t.name) = ["RealTool"] :=
  ⟨by decide, by decide⟩

/-- Claim C2, amended: every record emitted by either pipeline has a
non-empty `name` and `description`; the `url` is additionally non-empty in
the `part_003` pipeline unconditionally, and in `tool-finder.ts` provided
every candidate surfaced by the specialized ProductHunt scrape carries a
non-empty `url`. -/
theorem c2_amended_nonempty_fields :
    (∀ (q : String) (env : SrcFinder.Env) (t : SrcFinder.Tool),
      t ∈ SrcFinder.findTools q env → t.name ≠ "" ∧ t.description ≠ "") ∧
    (∀ (q : String) (env : SrcFinder.Env) (t : SrcFinder.Tool),
      (∀ ps, env.phSearch = some ps → ∀ p ∈ ps, p.url ≠ "") →
      t ∈ SrcFinder.findTools q env → t.url ≠ "") ∧
    (∀ (q : String) (env : P3Finder.Env) (t : P3Finder.AppTool),
      t ∈ P3Finder.findTools q env →
      t.name ≠ "" ∧ t.description ≠ "" ∧ t.url ≠ "") := by
  refine ⟨?_, ?_, ?_⟩
  · intro q env t h
    exact src_tool_core h
  · intro q env t hph h
    exact src_tool_url hph h
  · intro q env t h
    obtain ⟨h1, h2, h3, -, -, -, -⟩ := p3_tool_props h
    exact ⟨h1, h2, h3⟩

set_option maxRecDepth 4000 in
/-- Witness for the amended C2 at concrete all-failing environments. -/
theorem c2_amended_nonempty_fields_witness :
    (SrcFinder.fallbackTool3 "video editing" "1/1/2025").name ≠ "" ∧
    (SrcFinder.fallbackTool3 "video editing" "1/1/2025").url ≠ "" ∧
    (P3Finder.createFallbackTool "video editing" "NoSource" "1/1/2025").url ≠ "" := by
  have hmemS : SrcFinder.fallbackTool3 "video editing" "1/1/2025" ∈
      SrcFinder.findTools "video editing" (srcAllFailEnv "1/1/2025") := by decide
  have hmemP : P3Finder.createFallbackTool "video editing" "NoSource" "1/1/2025" ∈
      P3Finder.findTools "video editing" (p3AllFailEnv "1/1/2025") := by decide
  refine ⟨(c2_amended_nonempty_fields.1 _ _ _ hmemS).1,
    c2_amended_nonempty_fields.2.1 "video editing" (srcAllFailEnv "1/1/2025") _ ?_ hmemS,
    (c2_amended_nonempty_fields.2.2 "video editing" (p3AllFailEnv "1/1/2025") _ hmemP).2.2⟩
  intro ps hps
  exact Option.noConfusion hps

/-- Claim C3, counterexample: with input tools named `A` and `B` and a
ranking reply naming `A` twice, the `part_003` reconstruction is accepted
(size matches) yet drops `B` and duplicates `A`; with a three-name reply the
ranked size differs from the input size but the input is NOT returned
unchanged; and `sortToolsByRelevance` in `tool-finder.ts` returns the parsed
reply verbatim, even when it shares nothing with the input. -/
theorem c3_counterexample :
    P3Finder.rankStep [sampleTool "A", sampleTool "B"] (some ["A", "A"]) =
      [sampleTool "A", sampleTool "A"] ∧
    sampleTool "B" ∉ P3Finder.rankStep [sampleTool "A", sampleTool "B"] (some ["A", "A"]) ∧
    P3Finder.rankStep [sampleTool "A", sampleTool "B"] (some ["A", "A", "C"]) =
      [sampleTool "A", sampleTool "A"] ∧
    SrcFinder.sortToolsByRelevance [sampleSrcTool "X"] (some [sampleSrcTool "Y"]) =
      [sampleSrcTool "Y"] :=
  ⟨by decide, by decide, by decide, by decide⟩

/-- Claim C3, amended: the accepted ranking output draws every record from
the input; a `none` (failed) ranking and a size-mismatched reconstruction
return the input unchanged; the output is a true permutation of the input
whenever the input names are pairwise distinct and the ranked names are a
permutation of them; and the `tool-finder.ts` sorter returns its input only
on a failed parse. -/
theorem c3_ranking_amended (tools : List P3Finder.AppTool) (names : List String) :
    (∀ t ∈ P3Finder.rankStep tools (some names), t ∈ tools) ∧
    (P3Finder.rankStep tools none = tools) ∧
    ((P3Finder.rankReconstruct tools names).length ≠ tools.length →
      P3Finder.rankStep tools (some names) = tools) ∧
    ((tools.map (fun t => t.name)).Nodup →
      names.Perm (tools.map (fun t => t.name)) →
      (P3Finder.rankStep tools (some names)).Perm tools) ∧
    (∀ ts : List SrcFinder.Tool, ts ≠ [] →
      SrcFinder.sortToolsByRelevance ts none = ts) := by
  refine ⟨?_, rfl, ?_, ?_, ?_⟩
  · intro t ht
    exact mem_rankStep ht
  · intro hne
    simp only [P3Finder.rankStep]
    by_cases hn : names.length > 0
    · rw [if_pos hn, if_neg hne]
    · rw [if_neg hn]
  · intro hnd hp
    by_cases htn : tools = []
    · subst htn
      have hnames : names = [] := by
        have hl := hp.length_eq
        simp only [List.map_nil, List.length_nil] at hl
        exact List.length_eq_zero.mp hl
      subst hnames
      simp [P3Finder.rankStep]
    · have hperm := rankReconstruct_perm hnd hp
      have hlen : (P3Finder.rankReconstruct tools names).length = tools.length :=
        hperm.length_eq
      have hn : names.length > 0 := by
        have hl := hp.length_eq
        rw [List.length_map] at hl
        have hpos : tools.length > 0 := List.length_pos.mpr htn
        omega
      simp only [P3Finder.rankStep]
      rw [if_pos hn, if_pos hlen]
      exact hperm
  · intro ts hts
    unfold SrcFinder.sortToolsByRelevance
    rw [if_neg (by simpa [List.isEmpty_iff] using hts)]

/-- Witness for the amended C3: a two-element ranking that is a genuine
permutation, and the unchanged-on-failure case. -/
theorem c3_ranking_amended_witness :
    (P3Finder.rankStep [sampleTool "A", sampleTool "B"] (some ["B", "A"])).Perm
      [sampleTool "A", sampleTool "B"] ∧
    P3Finder.rankStep [sampleTool "A", sampleTool "B"] none =
      [sampleTool "A", sampleTool "B"] ∧
    SrcFinder.sortToolsByRelevance [sampleSrcTool "X"] none = [sampleSrcTool "X"] :=
  ⟨(c3_ranking_amended [sampleTool "A", sampleTool "B"] ["B", "A"]).2.2.2.1
      (by decide) (List.Perm.swap "A" "B" []),
   (c3_ranking_amended [sampleTool "A", sampleTool "B"] ["B", "A"]).2.1,
   (c3_ranking_amended [] ["B", "A"]).2.2.2.2 [sampleSrcTool "X"] (by decide)⟩

/-- Claim C4, counterexample: `crawlWebsite` in
`src/src/services/firecrawl.ts` performs a single call — not 2 — against a
permanently failing transport. -/
theorem c4_counterexample :
    (Fc.crawlWebsiteSrc (fun _ => .fail "service unavailable")).1 = 1 ∧
    (Fc.crawlWebsiteSrc (fun _ => .fail "service unavailable")).1 ≠ 2 :=
  ⟨rfl, by decide⟩

/-- Claim C4, amended: on a permanently failing transport the scrape and
search loops make exactly 3 attempts and the `part_002` crawl loop exactly
2, each returning a typed failure; the `crawlWebsite` of
`src/src/services/firecrawl.ts` makes exactly 1 attempt (it has no retry
loop). -/
theorem c4_retry_ceilings (msgS : Nat → Fc.ScrapeState → String)
    (msgQ : Nat → Bool → String) (msgC : Nat → Fc.CrawlState → String)
    (msgD : Nat → String) (stealth0 : Bool) (limit0 : Nat) :
    (Fc.scrapeSingleUrlLoop (fun i st => .fail (msgS i st)) stealth0).1 = 3 ∧
    (Fc.searchLoop (fun i st => .fail (msgQ i st))).1 = 3 ∧
    (Fc.crawlLoopP2 (fun i st => .fail (msgC i st)) limit0).1 = 2 ∧
    (Fc.crawlWebsiteSrc (fun i => .fail (msgD i))).1 = 1 ∧
    (∃ e, Fc.finishScrape
      (Fc.scrapeSingleUrlLoop (fun i st => .fail (msgS i st)) stealth0).2 = .error e) ∧
    (∃ e, Fc.finishScrape
      (Fc.crawlLoopP2 (fun i st => .fail (msgC i st)) limit0).2 = .error e) :=
  ⟨rfl, rfl, rfl, rfl, ⟨_, rfl⟩, ⟨_, rfl⟩⟩

/-- Claim C5, counterexample: the raw query `"ai"` trims to itself
(non-empty), yet the normalized query of the pipeline is empty — there is no
fallback to the raw trimmed query. -/
theorem c5_counterexample :
    jsTrimStr "ai" = "ai" ∧ ("ai" : String) ≠ "" ∧ cleanQuery "ai" = "" :=
  ⟨by decide, by decide, by decide⟩

/-- Claim C5, amended: normalization is a single pass with no non-emptiness
fallback — the normalized query is empty exactly when filler-stripping
leaves nothing but whitespace, regardless of the raw trimmed query. -/
theorem c5_normalization_no_fallback (q : String) :
    cleanQuery q = "" ↔ (stripFillers q.toList).all isWsChar = true := by
  unfold cleanQuery
  rw [stringMk_eq_empty_iff]
  exact normWs_eq_nil_iff _

/-- Claim C6, counterexample: normalization is not idempotent — deleting a
filler can join the surrounding text into a new filler occurrence. -/
theorem c6_counterexample :
    cleanQuery "what what is is" = "what is" ∧
    cleanQuery (cleanQuery "what what is is") = "" ∧
    cleanQuery (cleanQuery "what what is is") ≠ cleanQuery "what what is is" :=
  ⟨by decide, by decide, by decide⟩

/-- Claim C6, amended: normalization is idempotent exactly on the queries
whose normalized form contains no further filler occurrence (the stripping
pass fixes it); on such queries collapsing and trimming are also stable. -/
theorem c6_normalization_conditional_idem (q : String)
    (h : stripFillers ((cleanQuery q).toList) = (cleanQuery q).toList) :
    cleanQuery (cleanQuery q) = cleanQuery q := by
  show String.mk (jsTrimL (collapseWs (stripFillers ((cleanQuery q).toList)))) = cleanQuery q
  rw [h]
  show String.mk (jsTrimL (collapseWs
    (jsTrimL (collapseWs (stripFillers q.toList))))) = cleanQuery q
  rw [cleanQuery_core]
  rfl

/-- Witness for the amended C6 at `"video editing"`. -/
theorem c6_normalization_conditional_idem_witness :
    stripFillers ((cleanQuery "video editing").toList) = (cleanQuery "video editing").toList ∧
    cleanQuery (cleanQuery "video editing") = cleanQuery "video editing" :=
  ⟨by decide, c6_normalization_conditional_idem "video editing" (by decide)⟩

/-- Claim C7: for every task tag containing `extract` (the extraction
family), a non-2xx response or a network error makes `analyzeTool` resolve
to the synthesized fallback tool JSON; for every other task tag (ranking,
enhancement, chat, or no tag) the same failure is re-raised. -/
theorem c7_llm_failure_semantics :
    Azure.taskIncludesExtract (some "extract_ai_tools_from_search") = true ∧
    Azure.taskIncludesExtract (some "extract_tools_generic") = true ∧
    Azure.taskIncludesExtract (some "extract_tools") = true ∧
    Azure.taskIncludesExtract (some "rank_tools_by_relevance") = false ∧
    Azure.taskIncludesExtract (some "enhance_tool_details") = false ∧
    Azure.taskIncludesExtract (some "contextual_chat_response") = false ∧
    Azure.taskIncludesExtract none = false ∧
    (∀ (task : Option String) (q st body m : String),
      Azure.analyzeTool task q (.httpError st body) =
        (if Azure.taskIncludesExtract task then
          .ok (.fallbackJson (Azure.createFallbackToolResponse
            (if q = "" then "AI tool" else q)))
        else
          .error ("Azure OpenAI API error: " ++ st ++ ". Details: " ++ body)) ∧
      Azure.analyzeTool task q (.netError m) =
        (if Azure.taskIncludesExtract task then
          .ok (.fallbackJson (Azure.createFallbackToolResponse
            (if q = "" then "AI tool" else q)))
        else .error m)) := by
  refine ⟨by decide, by decide, by decide, by decide, by decide, by decide, by decide, ?_⟩
  intro task q st body m
  exact ⟨rfl, rfl⟩

/-- Claim C8, counterexample: in `tool-finder.ts`, when the specialized
ProductHunt scrape returns only listicle entries, the article-fallback loop
(lines 354-367) surfaces a record with NO useCases, pros or cons (and the
`Tool` record has no `features` field at all). -/
theorem c8_counterexample :
    (SrcFinder.findTools "video editing" srcEnvListicle).map (fun t => t.useCases) = [none] ∧
    (SrcFinder.findTools "video editing" srcEnvListicle).map (fun t => t.pros) = [none] ∧
    (SrcFinder.findTools "video editing" srcEnvListicle).map (fun t => t.cons) = [none] :=
  ⟨by decide, by decide, by decide⟩

/-- Claim C8, amended: in the `part_003` pipeline every surfaced record —
enriched, enhanced, or fallback — has non-empty `features`, `useCases`,
`pros` and `cons` lists; the `tool-finder.ts` pipeline gives no such
guarantee. -/
theorem c8_enrichment_lists_nonempty (q : String) (env : P3Finder.Env)
    (t : P3Finder.AppTool) (h : t ∈ P3Finder.findTools q env) :
    t.features ≠ [] ∧ t.useCases ≠ [] ∧ t.pros ≠ [] ∧ t.cons ≠ [] := by
  obtain ⟨-, -, -, h4, h5, h6, h7⟩ := p3_tool_props h
  exact ⟨h4, h5, h6, h7⟩

set_option maxRecDepth 4000 in
/-- Witness for the amended C8 at the all-failure environment. -/
theorem c8_enrichment_lists_nonempty_witness :
    P3Finder.createFallbackTool "video editing" "NoSource" "1/1/2025" ∈
      P3Finder.findTools "video editing" (p3AllFailEnv "1/1/2025") ∧
    (P3Finder.createFallbackTool "video editing" "NoSource" "1/1/2025").features ≠ [] := by
  have hm : P3Finder.createFallbackTool "video editing" "NoSource" "1/1/2025" ∈
      P3Finder.findTools "video editing" (p3AllFailEnv "1/1/2025") := by decide
  exact ⟨hm, (c8_enrichment_lists_nonempty _ _ _ hm).1⟩

/-- Claim C9: when every discovery path fails, the `name` and `url` of the
synthesized fallback record are deterministic functions of the query — two runs with the same
query but different environments and clock readings agree on both fields,
in both pipelines. -/
theorem c9_fallback_determinism (q : String) (e1 e2 : P3Finder.Env)
    (s1 s2 : SrcFinder.Env)
    (h1 : P3Finder.rawToolsOf e1 = []) (h2 : P3Finder.rawToolsOf e2 = [])
    (hs1p : s1.productScrape = false) (hs1h : s1.phSearch = none)
    (hs1f : s1.fcSearch = none)
    (hs2p : s2.productScrape = false) (hs2h : s2.phSearch = none)
    (hs2f : s2.fcSearch = none) :
    (P3Finder.findTools q e1).map (fun t => t.name) =
      (P3Finder.findTools q e2).map (fun t => t.name) ∧
    (P3Finder.findTools q e1).map (fun t => t.url) =
      (P3Finder.findTools q e2).map (fun t => t.url) ∧
    (SrcFinder.findTools q s1).map (fun t => t.name) =
      (SrcFinder.findTools q s2).map (fun t => t.name) ∧
    (SrcFinder.findTools q s1).map (fun t => t.url) =
      (SrcFinder.findTools q s2).map (fun t => t.url) := by
  rw [findTools_p3_allfail q e1 h1, findTools_p3_allfail q e2 h2,
    findTools_src_allfail q s1 hs1p hs1h hs1f,
    findTools_src_allfail q s2 hs2p hs2h hs2f]
  exact ⟨rfl, rfl, rfl, rfl⟩

/-- Witness for C9: two runs with different clock readings agree on the
fallback name and url. -/
theorem c9_fallback_determinism_witness :
    (P3Finder.findTools "image generation" (p3AllFailEnv "1/1/2025")).map (fun t => t.name) =
      (P3Finder.findTools "image generation" (p3AllFailEnv "2/2/2026")).map (fun t => t.name) ∧
    (SrcFinder.findTools "image generation" (srcAllFailEnv "1/1/2025")).map (fun t => t.url) =
      (SrcFinder.findTools "image generation" (srcAllFailEnv "2/2/2026")).map (fun t => t.url) := by
  have h := c9_fallback_determinism "image generation"
    (p3AllFailEnv "1/1/2025") (p3AllFailEnv "2/2/2026")
    (srcAllFailEnv "1/1/2025") (srcAllFailEnv "2/2/2026")
    (by decide) (by decide) rfl rfl rfl rfl rfl rfl
  exact ⟨h.1, h.2.2.2⟩

/-- Claim C10 (implicit): `findTools` in `tool-finder.ts` returns an array
of length exactly 1, for every query and every outcome of the external
calls — the final `tools.slice(0, 1)` discards everything after the first
record, and every terminal path pushes at least one. -/
theorem c10_exactly_one (q : String) (env : SrcFinder.Env) :
    (SrcFinder.findTools q env).length = 1 :=
  findTools_src_length q env
